import Mathlib

/-!
# gRPC-Web client over HTTP/1.1: frame codec, trailer parser, response reader

A shallow embedding of `parser.go`, `conn.go` and `http1_stream.go`.

Conventions of the embedding

* A Go `byte` is a natural number below 256; a `[]byte` and a Go `string` are
  both `List Nat` (a Go string is a byte sequence).
* `uint32` arithmetic is arithmetic on `Nat` reduced modulo `2 ^ 32` at the
  places where the source converts or adds.
* An `io.Reader` is the list of bytes that are still unread, together with
  the two fields of `Lib` that say how a call of `Read` delivers them: a call
  may hand out fewer bytes than the buffer holds, and may return `io.EOF`
  together with the last bytes.  The reader delivers every byte in the end and
  returns no other error.  A `bufio.Scanner` calls `Read` until it has a full
  line, so the tokens it hands out depend on the unread bytes only.
* A Go `error` is a value of `GoError`; the constructors keep apart the
  sentinel values (`io.EOF`, `io.ErrUnexpectedEOF`) and the errors that wrap
  them, because the source compares errors with `==`.
-/

namespace GrpcWeb

/-! ## Errors, statuses, metadata -/

/-- Outcome of an RPC (`status.Status`): numeric code, message text and the
serialized detail messages. -/
structure Status where
  code : Nat
  message : List Nat
  details : List (List Nat)
deriving DecidableEq, Repr

/-- Go `error` values that the three source files create or pass on. -/
inductive GoError where
  /-- The sentinel `io.EOF`. -/
  | EOF : GoError
  /-- The sentinel `io.ErrUnexpectedEOF`. -/
  | ErrUnexpectedEOF : GoError
  /-- Result of `fmt.Errorf("<text>: %w", inner)`: a fresh error value. -/
  | wrapf (text : String) (inner : GoError) : GoError
  /-- Result of `fmt.Errorf("<text>")`. -/
  | errorf (text : String) : GoError
  /-- An error returned by a codec, with its text. -/
  | codecErr (text : List Nat) : GoError
  /-- Result of `(*status.Status).Err()` on a status whose code is not OK. -/
  | statusErr (s : Status) : GoError
deriving DecidableEq, Repr

/-- Bytes of a string literal of the source (all literals are ASCII). -/
def bytesOf (s : String) : List Nat := s.toList.map Char.toNat

/-! ## `io.Reader` -/

/-- The unread bytes of a stream. -/
abbrev Reader := List Nat

/-- Outcome of `proto.Unmarshal(b, s)` into a fresh `spb.Status` followed by
`status.FromProto(s)`. -/
inductive ProtoResult where
  | ok (s : Status) : ProtoResult
  | err (text : List Nat) : ProtoResult
deriving DecidableEq, Repr

/-- Behaviour of the environment that is not written out: library functions
beyond ASCII, the protobuf decoder, and how the reader of the response body
delivers its bytes. -/
structure Lib where
  /-- `strings.Map(unicode.ToLower, s)`, which `strings.ToLower` runs on a
  string holding a byte of 0x80 or more. -/
  mapUnicodeToLower : List Nat → List Nat
  /-- `strings.TrimFunc(s, unicode.IsSpace)`. -/
  trimFuncIsSpace : List Nat → List Nat
  /-- `strings.TrimRightFunc(s, unicode.IsSpace)`. -/
  trimRightFuncIsSpace : List Nat → List Nat
  /-- `proto.Unmarshal` into `spb.Status`, then `status.FromProto`. -/
  unmarshalStatus : List Nat → ProtoResult
  /-- What is left unread in the reader `r` when `ParseStatusAndTrailer(r, length)`
  returns: its scanner reads ahead in blocks. -/
  unreadAfterScan : List Nat → Nat → List Nat
  /-- By how many bytes a call of `Read` falls short of what it could hand
  out, given the unread bytes and the size of the buffer: an `io.Reader` may
  hand out fewer bytes than the buffer holds (a call on a non-empty buffer
  hands out at least one byte while bytes are unread). -/
  readShortBy : List Nat → Nat → Nat
  /-- Whether the call of `Read` that hands out the last unread byte returns
  `io.EOF` together with it, rather than leaving `io.EOF` to the next call;
  given the unread bytes and the size of the buffer. -/
  eofWithData : List Nat → Nat → Bool

/-- One call `r.Read(p)` with `len(p) = n`: the bytes stored into `p`, the
error, and the reader afterwards.  Of the `min n (len r)` bytes that the call
could hand out it hands out all but `L.readShortBy r n`, and at least one; at
the end of the stream it returns `io.EOF`. -/
def Read (L : Lib) (r : Reader) (n : Nat) : List Nat × Option GoError × Reader :=
  match r with
  | [] => ([], some GoError.EOF, [])
  | _ :: _ =>
    let k := min n r.length - min (L.readShortBy r n) (min n r.length - 1)
    (r.take k,
      if k = r.length ∧ L.eofWithData r n = true then some GoError.EOF else none,
      r.drop k)

/-! ## Frame codec (`conn.go`, `parser.go`) -/

def payloadLen : Nat := 1
def sizeLen : Nat := 4
def headerLen : Nat := payloadLen + sizeLen
/-- The conversion `byte(x)`. -/
def toByte (x : Nat) : Nat := x % 256

/-- The conversion `uint32(x)`. -/
def toUint32 (x : Nat) : Nat := x % 2 ^ 32

/-- The four bytes that `binary.BigEndian.PutUint32(b, v)` stores. -/
def PutUint32 (v : Nat) : List Nat :=
  [toByte (v >>> 24), toByte (v >>> 16), toByte (v >>> 8), toByte v]

/-- The value `binary.BigEndian.Uint32(b)`; a missing byte reads as zero, as
in the zero-initialised array the source passes. -/
def Uint32 (b : List Nat) : Nat :=
  toUint32 (b.getD 3 0 ||| b.getD 2 0 <<< 8 ||| b.getD 1 0 <<< 16 ||| b.getD 0 0 <<< 24)

/-- Frame header of `parser.go`. -/
structure Header where
  flag : Nat
  ContentLength : Nat
deriving DecidableEq, Repr

def Header.IsMessageHeader (h : Header) : Bool :=
  h.flag == 0 || h.flag == 1

def Header.IsTrailerHeader (h : Header) : Bool :=
  toByte (h.flag >>> 7) == 1

/-- A Go result pair `(value, error)`: the value when the error is nil,
otherwise the error. -/
inductive Res (α : Type) where
  | ok (v : α) : Res α
  | err (e : GoError) : Res α
deriving DecidableEq, Repr

/-- `ParseResponseHeader` of `parser.go`. -/
def ParseResponseHeader (L : Lib) (r : Reader) : Res Header × Reader :=
  match Read L r 5 with
  | (_, some e, r1) => (Res.err (GoError.wrapf "failed to read header" e), r1)
  | (h, none, r1) =>
    if h.length ≠ 5 then (Res.err GoError.ErrUnexpectedEOF, r1)
    else
      let length := Uint32 (h.drop 1)
      if length = 0 then (Res.err GoError.EOF, r1)
      else (Res.ok ⟨h.getD 0 0, length⟩, r1)

/-- `ParseLengthPrefixedMessage` of `parser.go`. -/
def ParseLengthPrefixedMessage (L : Lib) (r : Reader) (length : Nat) :
    Res (List Nat) × Reader :=
  match Read L r length with
  | (content, err, r1) =>
    if toUint32 content.length ≠ length then (Res.err GoError.ErrUnexpectedEOF, r1)
    else if err = some GoError.EOF then (Res.err GoError.EOF, r1)
    else
      match err with
      | some e => (Res.err e, r1)
      | none => (Res.ok content, r1)

/-! ## Imported packages

The pieces of `strings`, `bufio`, `strconv`, `encoding/base64` and
`metadata` that the parser calls are written out below from the behaviour of
those packages.  The parts that need Unicode tables or the protobuf wire
format are fields of `Lib`. -/

/-- ASCII lower-casing of one byte. -/
def lowerByte (c : Nat) : Nat := if 65 ≤ c ∧ c ≤ 90 then c + 32 else c

/-- `strings.ToLower`. -/
def ToLower (L : Lib) (s : List Nat) : List Nat :=
  if s.all (fun c => decide (c < 128)) then s.map lowerByte else L.mapUnicodeToLower s

/-- The table `asciiSpace` of package `strings`. -/
def asciiSpace (c : Nat) : Bool :=
  c == 9 || c == 10 || c == 11 || c == 12 || c == 13 || c == 32

/-- Second loop of `strings.TrimSpace`, run over the reversed `s[start:]`. -/
def trimSpaceStop (L : Lib) : List Nat → List Nat
  | [] => []
  | c :: rest =>
    if 128 ≤ c then L.trimRightFuncIsSpace (c :: rest).reverse
    else if asciiSpace c then trimSpaceStop L rest
    else (c :: rest).reverse

/-- `strings.TrimSpace`. -/
def TrimSpace (L : Lib) : List Nat → List Nat
  | [] => []
  | c :: rest =>
    if 128 ≤ c then L.trimFuncIsSpace (c :: rest)
    else if asciiSpace c then TrimSpace L rest
    else trimSpaceStop L (c :: rest).reverse

/-- `strings.Index(t, sep)` for a one-byte separator; `none` stands for -1. -/
def Index : List Nat → Nat → Option Nat
  | [], _ => none
  | x :: xs, c => if x = c then some 0 else (Index xs c).map (fun i => i + 1)

/-- Constant `bufio.MaxScanTokenSize`. -/
def maxScanTokenSize : Nat := 64 * 1024

/-- Helper `dropCR` of `bufio.ScanLines`. -/
def dropCR (data : List Nat) : List Nat :=
  if data.getLast? = some 13 then data.dropLast else data

/-- Tokens handed out by the successive `s.Scan()` calls of a
`bufio.Scanner` with the default split function `ScanLines`, until `Scan`
returns false.  `cur` holds, reversed, the bytes of the line being read.  A
line that fills the 64 KiB buffer without a newline makes `Scan` return false
(`ErrTooLong`); the source never looks at `s.Err()`. -/
def scanLinesFrom : List Nat → List Nat → List (List Nat)
  | [], cur =>
    if maxScanTokenSize ≤ cur.length then []
    else if cur = [] then []
    else [dropCR cur.reverse]
  | b :: rest, cur =>
    if maxScanTokenSize ≤ cur.length then []
    else if b = 10 then dropCR cur.reverse :: scanLinesFrom rest []
    else scanLinesFrom rest (b :: cur)

/-- All tokens of a scanner over the reader `r`. -/
def scanLines (r : Reader) : List (List Nat) := scanLinesFrom r []

/-- The lines of a text, whatever their length: the bytes between line feeds,
each without a trailing carriage return, and the bytes after the last line
feed when there are any.  `cur` holds, reversed, the bytes of the line being
read. -/
def linesFrom : List Nat → List Nat → List (List Nat)
  | [], cur => if cur = [] then [] else [dropCR cur.reverse]
  | b :: rest, cur =>
    if b = 10 then dropCR cur.reverse :: linesFrom rest []
    else linesFrom rest (b :: cur)

/-- The lines of a trailer payload. -/
def payloadLines (payload : List Nat) : List (List Nat) := linesFrom payload []

/-- Loop of `strconv.ParseUint(s, 10, 32)`. -/
def parseUintLoop : List Nat → Nat → Option Nat
  | [], n => some n
  | c :: cs, n =>
    if 48 ≤ c ∧ c ≤ 57 then
      if n * 10 + (c - 48) > 2 ^ 32 - 1 then none else parseUintLoop cs (n * 10 + (c - 48))
    else none

/-- `strconv.ParseUint(s, 10, 32)`; `none` stands for a non-nil error. -/
def ParseUint (s : List Nat) : Option Nat :=
  if s = [] then none else parseUintLoop s 0

/-- Digits of `strconv.FormatInt(n, 10)` for `n ≥ 0`, with fuel. -/
def decimalFrom : Nat → Nat → List Nat → List Nat
  | 0, _, acc => acc
  | fuel + 1, n, acc =>
    if n / 10 = 0 then (48 + n % 10) :: acc
    else decimalFrom fuel (n / 10) ((48 + n % 10) :: acc)

/-- Decimal text of a natural number. -/
def decimal (n : Nat) : List Nat := decimalFrom (n + 1) n []

/-! ### `encoding/base64` -/

/-- Alphabet of `base64.StdEncoding`. -/
def encodeStd (i : Nat) : Nat :=
  if i < 26 then 65 + i
  else if i < 52 then 97 + (i - 26)
  else if i < 62 then 48 + (i - 52)
  else if i = 62 then 43
  else 47

/-- Table `decodeMap` of `base64.StdEncoding`; 255 marks a byte outside the
alphabet. -/
def decodeMap (c : Nat) : Nat :=
  if 65 ≤ c ∧ c ≤ 90 then c - 65
  else if 97 ≤ c ∧ c ≤ 122 then c - 97 + 26
  else if 48 ≤ c ∧ c ≤ 57 then c - 48 + 52
  else if c = 43 then 62
  else if c = 47 then 63
  else 255

/-- `base64.StdEncoding.EncodeToString`. -/
def EncodeToString : List Nat → List Nat
  | [] => []
  | [a] =>
    let val := a <<< 16
    [encodeStd (val >>> 18 &&& 63), encodeStd (val >>> 12 &&& 63), 61, 61]
  | [a, b] =>
    let val := a <<< 16 ||| b <<< 8
    [encodeStd (val >>> 18 &&& 63), encodeStd (val >>> 12 &&& 63),
      encodeStd (val >>> 6 &&& 63), 61]
  | a :: b :: c :: rest =>
    let val := a <<< 16 ||| b <<< 8 ||| c
    encodeStd (val >>> 18 &&& 63) :: encodeStd (val >>> 12 &&& 63) ::
      encodeStd (val >>> 6 &&& 63) :: encodeStd (val &&& 63) :: EncodeToString rest

/-- Bytes that `decodeQuantum` stores for a quantum of `dlen` sextets. -/
def quantumBytes (dbuf : List Nat) (dlen : Nat) : List Nat :=
  let val := dbuf.getD 0 0 <<< 18 ||| dbuf.getD 1 0 <<< 12 ||| dbuf.getD 2 0 <<< 6 |||
    dbuf.getD 3 0
  [toByte (val >>> 16), toByte (val >>> 8), toByte (val >>> 0)].take (dlen - 1)

/-- The loops `for si < len(src) && (src[si] == '\n' || src[si] == '\r')`. -/
def skipNewlines : List Nat → Nat → List Nat × Nat
  | [], si => ([], si)
  | c :: rest, si => if c = 10 ∨ c = 13 then skipNewlines rest (si + 1) else (c :: rest, si)

/-- `(*Encoding).Decode` for the non-strict standard alphabet, as the
repetition of `decodeQuantum`: `src` is the unread input and `si` its index,
`dbuf` the sextets of the current quantum, `out` the bytes written so far.
The result is the decoded bytes and the `CorruptInputError`, if any. -/
def decodeLoop (padded : Bool) : List Nat → Nat → List Nat → List Nat → List Nat × Option Nat
  | [], si, dbuf, out =>
    if dbuf.length = 0 then (out, none)
    else if dbuf.length = 1 ∨ padded = true then (out, some (si - dbuf.length))
    else (out ++ quantumBytes dbuf dbuf.length, none)
  | c :: rest, si, dbuf, out =>
    if decodeMap c ≠ 255 then
      if dbuf.length = 3 then
        decodeLoop padded rest (si + 1) [] (out ++ quantumBytes (dbuf ++ [decodeMap c]) 4)
      else decodeLoop padded rest (si + 1) (dbuf ++ [decodeMap c]) out
    else if c = 10 ∨ c = 13 then decodeLoop padded rest (si + 1) dbuf out
    else if padded = false ∨ c ≠ 61 then (out, some si)
    else if dbuf.length < 2 then (out, some si)
    else if dbuf.length = 2 then
      match skipNewlines rest (si + 1) with
      | ([], _) => (out, some (si + 1 + rest.length))
      | (c2 :: rest2, si2) =>
        if c2 ≠ 61 then (out, some (si2 - 1))
        else
          match skipNewlines rest2 (si2 + 1) with
          | ([], _) => (out ++ quantumBytes dbuf 2, none)
          | (_ :: _, si3) => (out ++ quantumBytes dbuf 2, some si3)
    else
      match skipNewlines rest (si + 1) with
      | ([], _) => (out ++ quantumBytes dbuf 3, none)
      | (_ :: _, si3) => (out ++ quantumBytes dbuf 3, some si3)

/-- `base64.StdEncoding.DecodeString` (`padded = true`) and
`base64.RawStdEncoding.DecodeString` (`padded = false`). -/
def DecodeString (padded : Bool) (s : List Nat) : List Nat × Option Nat :=
  decodeLoop padded s 0 [] []

/-- `decodeBase64Value` of `parser.go`. -/
def decodeBase64Value (v : List Nat) : List Nat × Option Nat :=
  if v.length % 4 = 0 then DecodeString true v else DecodeString false v

/-- Text of a `base64.CorruptInputError`. -/
def corruptInputText (n : Nat) : List Nat :=
  bytesOf "illegal base64 data at input byte " ++ decimal n

/-- An encoding with its trailing `=` padding removed. -/
def stripPadding (v : List Nat) : List Nat :=
  (v.reverse.dropWhile (fun c => c == 61)).reverse


/-! ### `metadata.MD`, `status`, `codes` -/

/-- A `metadata.MD` or `http.Header`: keys with their values, in the order
in which the keys were first stored. -/
abbrev MD := List (List Nat × List (List Nat))

instance instDecidableEqMD : DecidableEq MD :=
  inferInstanceAs (DecidableEq (List (List Nat × List (List Nat))))

/-- The map read `md[k]`; a missing key reads as the nil slice. -/
def MD.Get : MD → List Nat → List (List Nat)
  | [], _ => []
  | (k1, vs) :: rest, k => if k1 = k then vs else MD.Get rest k

/-- The map write `md[k] = vs`. -/
def MD.Set : MD → List Nat → List (List Nat) → MD
  | [], k, vs => [(k, vs)]
  | (k1, vs1) :: rest, k, vs => if k1 = k then (k1, vs) :: rest else (k1, vs1) :: MD.Set rest k vs

/-- `md.Append(k, v)` with one value. -/
def MD.Append (L : Lib) (md : MD) (k : List Nat) (v : List Nat) : MD :=
  MD.Set md (ToLower L k) (MD.Get md (ToLower L k) ++ [v])

/-- `md.Len()`. -/
def MD.Len (md : MD) : Nat := md.length

def codes.OK : Nat := 0
def codes.Unknown : Nat := 2
def codes.Internal : Nat := 13

/-- `status.New(c, msg)`. -/
def status.New (c : Nat) (msg : List Nat) : Status := ⟨c, msg, []⟩

/-- `(*status.Status).Err()`: nil when the code is OK. -/
def Status.Err (s : Status) : Option GoError :=
  if s.code = codes.OK then none else some (GoError.statusErr s)

/-- The status built by
`status.Newf(codes.Internal, "transport: malformed grpc-status-details-bin: %v", err)`
for an error with the text `errText`. -/
def malformedDetails (errText : List Nat) : Status :=
  status.New codes.Internal (bytesOf "transport: malformed grpc-status-details-bin: " ++ errText)

/-! ## Trailer parser (`parser.go`) -/

/-- Local variables of `ParseStatusAndTrailer`. -/
structure TrailerVars where
  readLen : Nat
  headerStat : Option Status
  code : Nat
  msg : List Nat
  trailer : MD
deriving DecidableEq, Repr

/-- Values of the local variables before the loop. -/
def TrailerVars.init : TrailerVars := ⟨0, none, 0, [], []⟩

/-- The statements of `ParseStatusAndTrailer` after its loop. -/
def trailerFinish (st : TrailerVars) : Res (Status × Option MD) :=
  let stat := match st.headerStat with
    | some hs => hs
    | none => status.New st.code st.msg
  if MD.Len st.trailer = 0 then Res.ok (stat, none) else Res.ok (stat, some st.trailer)

/-- How one pass through the body of the loop `for s.Scan()` ends: with the
next iteration, or with a `return`. -/
inductive LoopStep where
  | next (st : TrailerVars) : LoopStep
  | done (res : Res (Status × Option MD)) : LoopStep
deriving DecidableEq, Repr

/-- Body of the loop `for s.Scan()` of `ParseStatusAndTrailer` for the token
`t` (the value of `s.Bytes()` and of `s.Text()`). -/
def trailerBody (L : Lib) (length : Nat) (t : List Nat) (st : TrailerVars) : LoopStep :=
  let readLen := toUint32 (st.readLen + toUint32 t.length)
  if readLen > length then LoopStep.done (Res.err GoError.ErrUnexpectedEOF)
  else
    match Index t 58 with
    | none => LoopStep.done (Res.err GoError.ErrUnexpectedEOF)
    | some i =>
      let k := ToLower L (t.take i)
      let v := TrimSpace L (t.drop (i + 1))
      if k = bytesOf "grpc-status" then
        match ParseUint v with
        | none => LoopStep.next { st with readLen := readLen, code := codes.Unknown }
        | some n => LoopStep.next { st with readLen := readLen, code := toUint32 n }
      else if k = bytesOf "grpc-message" then
        LoopStep.next { st with readLen := readLen, msg := v }
      else if k = bytesOf "grpc-status-details-bin" then
        match decodeBase64Value v with
        | (_, some n) => LoopStep.done (Res.ok (malformedDetails (corruptInputText n), none))
        | (b, none) =>
          match L.unmarshalStatus b with
          | ProtoResult.err text => LoopStep.done (Res.ok (malformedDetails text, none))
          | ProtoResult.ok s => LoopStep.next { st with readLen := readLen, headerStat := some s }
      else
        LoopStep.next { st with readLen := readLen, trailer := MD.Append L st.trailer k v }

/-- The loop `for s.Scan()` of `ParseStatusAndTrailer` over the tokens that
the scanner hands out, followed by the statements after the loop. -/
def trailerLoop (L : Lib) (length : Nat) : List (List Nat) → TrailerVars → Res (Status × Option MD)
  | [], st => trailerFinish st
  | t :: ts, st =>
    match trailerBody L length t st with
    | LoopStep.next st1 => trailerLoop L length ts st1
    | LoopStep.done res => res

/-- `ParseStatusAndTrailer` of `parser.go`: the error case returns neither a
status nor metadata; `none` metadata is the nil map. -/
def ParseStatusAndTrailer (L : Lib) (r : Reader) (length : Nat) : Res (Status × Option MD) :=
  trailerLoop L length (scanLines r) TrailerVars.init

/-! ## Response reader (`conn.go`) -/

/-- How a call ends: it returns, or the goroutine panics. -/
inductive Call (α : Type) where
  | ret (v : α) : Call α
  | panic (why : String) : Call α
deriving DecidableEq, Repr

/-- An `encoding.Codec`, seen through `Name` and `Unmarshal`; `Unmarshal`
gives `none` for a nil error. -/
structure Codec where
  Name : String
  Unmarshal : List Nat → Option GoError

/-- What a call of `bodyToMessage` does: its two results (or a panic), the
byte slices it handed to `codec.Unmarshal` in call order, and the reader
afterwards. -/
structure BodyResult where
  out : Call (Option MD × Option GoError)
  unmarshals : List (List Nat)
  rest : Reader
deriving DecidableEq, Repr

/-- `bodyToMessage` from the test `if !resHeader.IsTrailerHeader()` on; `calls`
are the `Unmarshal` calls made before. -/
def bodyToMessageTail (L : Lib) (resHeader : Header) (r : Reader) (noTrailer : Bool)
    (calls : List (List Nat)) : BodyResult :=
  if !resHeader.IsTrailerHeader then
    if noTrailer then ⟨Call.ret (none, none), calls, r⟩
    else ⟨Call.ret (none, some (GoError.errorf "unexpected header")), calls, r⟩
  else
    match ParseStatusAndTrailer L r resHeader.ContentLength with
    | Res.err e =>
      ⟨Call.ret (none, some (GoError.wrapf "failed to parse status and trailer" e)), calls,
        L.unreadAfterScan r resHeader.ContentLength⟩
    | Res.ok (statusResp, trailer) =>
      ⟨Call.ret (trailer, statusResp.Err), calls, L.unreadAfterScan r resHeader.ContentLength⟩

/-- `bodyToMessage` of `conn.go`; `codec = none` is the nil interface, on
which a method call panics. -/
def bodyToMessage (L : Lib) (rawBody : Reader) (codec : Option Codec) (noTrailer : Bool) :
    BodyResult :=
  match ParseResponseHeader L rawBody with
  | (Res.err e, r1) =>
    if e = GoError.EOF then ⟨Call.ret (none, none), [], r1⟩
    else ⟨Call.ret (none, some (GoError.wrapf "failed to parse response header" e)), [], r1⟩
  | (Res.ok resHeader, r1) =>
    if resHeader.IsMessageHeader then
      match ParseLengthPrefixedMessage L r1 resHeader.ContentLength with
      | (Res.err e, r2) =>
        ⟨Call.ret (none, some (GoError.wrapf "failed to parse the response body" e)), [], r2⟩
      | (Res.ok resBody, r2) =>
        match codec with
        | none => ⟨Call.panic "invalid memory address or nil pointer dereference", [], r2⟩
        | some cd =>
          match cd.Unmarshal resBody with
          | some e =>
            ⟨Call.ret (none, some (GoError.wrapf
              ("failed to unmarshal response body by codec " ++ cd.Name) e)), [resBody], r2⟩
          | none =>
            if !noTrailer then
              match ParseResponseHeader L r2 with
              | (Res.err e, r3) =>
                ⟨Call.ret (none, some (GoError.wrapf "failed to parse response header" e)),
                  [resBody], r3⟩
              | (Res.ok resHeader2, r3) => bodyToMessageTail L resHeader2 r3 noTrailer [resBody]
            else bodyToMessageTail L resHeader r2 noTrailer [resBody]
    else bodyToMessageTail L resHeader r1 noTrailer []

/-! ## Client stream (`http1_stream.go`) -/

/-- The parts of an `*http.Response` that the stream uses. -/
structure Response where
  Header : MD
  Body : Reader
  bodyClosed : Bool
deriving DecidableEq, Repr

/-- Fields of `Http1ClientStream`.  The channel `hasHeader` is described by
whether it is closed, the context `ctx` by whether `cancelFunc` has run, the
mutex by whether it is held; `httpClient` is the environment of `SendMsg`. -/
structure Http1ClientStream where
  url : List Nat
  hasHeaderClosed : Bool
  mutexRecvLocked : Bool
  headers : Option MD
  trailers : Option MD
  ctxCancelled : Bool
  resp : Option Response
  hdrs : MD
deriving DecidableEq, Repr

/-- `NewHttp1ClientStream`: the session it returns (the goroutine that waits
for the caller's context is not part of the value). -/
def NewHttp1ClientStream (url : List Nat) (hdrs : MD) : Http1ClientStream :=
  { url := url, hasHeaderClosed := false, mutexRecvLocked := false, headers := none,
    trailers := none, ctxCancelled := false, resp := none, hdrs := hdrs }

/-- `(h *Http1ClientStream).Trailer`. -/
def Http1ClientStream.Trailer (h : Http1ClientStream) : Option MD := h.trailers

/-- `strings.HasPrefix`. -/
def HasPrefix : List Nat → List Nat → Bool
  | _, [] => true
  | [], _ :: _ => false
  | a :: s, b :: p => a == b && HasPrefix s p

/-- `strings.TrimPrefix`. -/
def TrimPrefix (s p : List Nat) : List Nat := if HasPrefix s p then s.drop p.length else s

/-- `resp.Header.Get(key)` for a key in canonical form. -/
def headerGet (hd : MD) (key : List Nat) : List Nat := (MD.Get hd key).headD []

/-- The codec name that `RecvMsg` and `Invoke` derive from the response. -/
def codecNameOf (resp : Response) : List Nat :=
  if HasPrefix (headerGet resp.Header (bytesOf "Content-Type")) (bytesOf "application/grpc-web+")
  then TrimPrefix (headerGet resp.Header (bytesOf "Content-Type")) (bytesOf "application/grpc-web+")
  else bytesOf "proto"

/-- What a call of `RecvMsg` does: its result (or a panic), the session
afterwards, and the byte slices handed to `Unmarshal`. -/
structure RecvResult where
  out : Call (Option GoError)
  session : Http1ClientStream
  unmarshals : List (List Nat)

/-- `(h *Http1ClientStream).RecvMsg`; `GetCodec` is `encoding.GetCodec`.  The
mutex is taken and released within the call.  A read on a body that was
closed fails with an error of package `http`. -/
def Http1ClientStream.RecvMsg (L : Lib) (GetCodec : List Nat → Option Codec)
    (h : Http1ClientStream) : RecvResult :=
  match h.resp with
  | none => ⟨Call.ret (some (GoError.errorf "you must send before receiving")), h, []⟩
  | some resp =>
    if resp.bodyClosed then
      ⟨Call.ret (some (GoError.wrapf "failed to parse response header"
        (GoError.wrapf "failed to read header"
          (GoError.errorf "http: read on closed response body")))), h, []⟩
    else
      let res := bodyToMessage L resp.Body (GetCodec (codecNameOf resp)) true
      let h1 := { h with resp := some { resp with Body := res.rest } }
      match res.out with
      | Call.panic why => ⟨Call.panic why, h1, res.unmarshals⟩
      | Call.ret (_, some e) => ⟨Call.ret (some e), h1, res.unmarshals⟩
      | Call.ret (_, none) => ⟨Call.ret none, h1, res.unmarshals⟩


/-- `(h *Http1ClientStream).storeHeader`: closing a closed channel panics. -/
def Http1ClientStream.storeHeader (h : Http1ClientStream) : Call Unit × Http1ClientStream :=
  match h.resp with
  | none => (Call.panic "invalid memory address or nil pointer dereference",
      { h with headers := some [] })
  | some resp =>
    if h.hasHeaderClosed then
      (Call.panic "close of closed channel", { h with headers := some resp.Header })
    else (Call.ret (), { h with headers := some resp.Header, hasHeaderClosed := true })

/-- `(h *Http1ClientStream).SendMsg`; `reqErr` is the error of
`messageToRequest` and `doRes` the result of `h.httpClient.Do(req)`. -/
def Http1ClientStream.SendMsg (h : Http1ClientStream) (reqErr : Option GoError)
    (doRes : Res Response) : Call (Option GoError) × Http1ClientStream :=
  match reqErr with
  | some e => (Call.ret (some e), h)
  | none =>
    match doRes with
    | Res.err e => (Call.ret (some e), h)
    | Res.ok resp =>
      match Http1ClientStream.storeHeader { h with resp := some resp } with
      | (Call.panic why, h1) => (Call.panic why, h1)
      | (Call.ret _, h1) => (Call.ret none, h1)

/-- `(h *Http1ClientStream).close`: `h.resp.Body` on a nil `h.resp` panics. -/
def Http1ClientStream.close (h : Http1ClientStream) : Call Unit × Http1ClientStream :=
  match h.resp with
  | none => (Call.panic "invalid memory address or nil pointer dereference",
      { h with ctxCancelled := true })
  | some resp =>
    (Call.ret (), { h with ctxCancelled := true, resp := some { resp with bodyClosed := true } })

/-! ## Vocabulary of the statements -/

/-- One frame of the wire format: flag byte, big-endian length, payload. -/
def frame (flag : Nat) (payload : List Nat) : List Nat :=
  flag :: PutUint32 (toUint32 payload.length) ++ payload

/-- The key `strings.ToLower(t[:i])` under which the loop of
`ParseStatusAndTrailer` handles the line `t`; a line without `:` has none. -/
def lineKey (L : Lib) (t : List Nat) : Option (List Nat) :=
  (Index t 58).map (fun i => ToLower L (t.take i))

/-- The value `strings.TrimSpace(t[i+1:])` of the line `t`. -/
def lineValue (L : Lib) (t : List Nat) : List Nat :=
  match Index t 58 with
  | some i => TrimSpace L (t.drop (i + 1))
  | none => []

/-- The status that a `grpc-status-details-bin` value decodes to: base64
(`decodeBase64Value`), then `proto.Unmarshal` and `status.FromProto`; `none`
when either step fails. -/
def decodeDetails (L : Lib) (v : List Nat) : Option Status :=
  match decodeBase64Value v with
  | (_, some _) => none
  | (b, none) =>
    match L.unmarshalStatus b with
    | ProtoResult.err _ => none
    | ProtoResult.ok s => some s

/-- The status that `ParseStatusAndTrailer` returned, if it returned one. -/
def statusOf : Res (Status × Option MD) → Option Status
  | Res.ok (s, _) => some s
  | Res.err _ => none

/-- Total number of bytes of a list of lines. -/
def sumLen (lines : List (List Nat)) : Nat := (lines.map List.length).sum

/-- The three keys that `ParseStatusAndTrailer` consumes into the status. -/
def reservedKeys : List (List Nat) :=
  [bytesOf "grpc-status", bytesOf "grpc-message", bytesOf "grpc-status-details-bin"]

/-- A `Lib` whose Unicode helpers leave their argument alone, whose status
decoder accepts exactly the two bytes `08 0d` (field 1, varint 13: an
`spb.Status` with code Internal), and whose body reader fills every buffer
and returns `io.EOF` by a call of its own (as `bytes.Reader` does); it serves
to evaluate the definitions on ASCII inputs, where the Unicode helpers are
not reached. -/
def asciiLib : Lib :=
  { mapUnicodeToLower := fun s => s
    trimFuncIsSpace := fun s => s
    trimRightFuncIsSpace := fun s => s
    unmarshalStatus := fun b =>
      if b = [8, 13] then ProtoResult.ok ⟨13, [], []⟩
      else ProtoResult.err (bytesOf "proto: cannot parse invalid wire-format data")
    unreadAfterScan := fun _ _ => []
    readShortBy := fun _ _ => 0
    eofWithData := fun _ _ => false }

/-- The library `asciiLib` with a body reader that hands out one byte per
call of `Read` (as `iotest.OneByteReader` does). -/
def oneByteLib : Lib := { asciiLib with readShortBy := fun _ n => n - 1 }

/-- A trailer payload with the three reserved keys and `x-custom: foo`. -/
def customTrailer : List Nat :=
  bytesOf "grpc-status: 0\r\ngrpc-message: ok\r\ngrpc-status-details-bin: CA0=\r\nx-custom: foo\r\n"

/-- A trailer payload whose first line is a `grpc-status-details-bin` line
with a value outside the base64 alphabet. -/
def malformedThenLong : List Nat :=
  bytesOf "grpc-status-details-bin: !\r\nx: yyyyyyyyyyyyyyy\r\n"

/-- A line `x:aaa...` of 65538 bytes, more than the line scanner's buffer
holds. -/
def tooLongLine : List Nat := 120 :: 58 :: List.replicate 65536 97

/-- The payload with the lines `first`, `tooLongLine` and `last`, each ended
by a line feed. -/
def longLineBetween (first last : List Nat) : List Nat :=
  first ++ 10 :: (tooLongLine ++ 10 :: (last ++ [10]))

/-- A line `x:aaa...` of 65535 bytes. -/
def wrapLine : List Nat := 120 :: 58 :: List.replicate 65533 97

/-- A trailer payload of 65537 lines `wrapLine`, which sum to 2^32 - 1 bytes,
followed by the line `y:z`; every line ends with a line feed. -/
def wrapBody : List Nat :=
  (List.replicate 65537 (wrapLine ++ [10])).flatten ++ bytesOf "y:z\n"

/-- The trailer payload with the two lines `grpc-status: c` and
`grpc-message: m`, each ended by CRLF. -/
def statusMessageTrailer (c : Nat) (m : List Nat) : List Nat :=
  bytesOf "grpc-status: " ++ decimal c ++ [13, 10] ++ bytesOf "grpc-message: " ++ m ++ [13, 10]

/-- A message text of 65521 letters `a`. -/
def longMessage : List Nat := List.replicate 65521 97

/-- A codec named `proto` whose `Unmarshal` accepts every input. -/
def acceptAll : Codec := ⟨"proto", fun _ => none⟩

/-- Whether a call of `bodyToMessage` returned a nil trailer and an error. -/
def BodyResult.failed (res : BodyResult) : Bool :=
  match res.out with
  | Call.ret (none, some _) => true
  | _ => false

/-- Bit 7 of a flag byte. -/
def bit7 (f : Nat) : Bool := f / 128 % 2 == 1

/-- Whether `ParseStatusAndTrailer` returned no error, no metadata and a
status with code Internal whose message begins
`transport: malformed grpc-status-details-bin: `. -/
def isMasked : Res (Status × Option MD) → Bool
  | Res.ok (s, none) =>
    s.code == codes.Internal &&
      HasPrefix s.message (bytesOf "transport: malformed grpc-status-details-bin: ")
  | _ => false

/-- Whether a byte is an ASCII digit. -/
def isDigit (c : Nat) : Bool := decide (48 ≤ c ∧ c ≤ 57)

/-- The number that a string of decimal digits denotes. -/
def decimalValue (s : List Nat) : Nat := s.foldl (fun a c => a * 10 + (c - 48)) 0

/-- Whether a string is a base-10 unsigned integer below 2^32: it is not
empty, holds only ASCII digits and denotes a number below 2^32. -/
def isUint32Text (s : List Nat) : Bool :=
  decide (s ≠ []) && s.all isDigit && decide (decimalValue s < 2 ^ 32)

/-- A trailer payload with status OK and the line `x-custom: foo`. -/
def okCustomTrailer : List Nat := bytesOf "grpc-status: 0\r\nx-custom: foo\r\n"

/-- A response whose body is one trailer frame carrying `okCustomTrailer`. -/
def trailerResponse : Response :=
  { Header := [], Body := frame 128 okCustomTrailer, bodyClosed := false }

/-- The session after a first `SendMsg` that obtained `trailerResponse`. -/
def sentSession : Http1ClientStream :=
  (Http1ClientStream.SendMsg (NewHttp1ClientStream [117] []) none (Res.ok trailerResponse)).2

/-! ## Theorems -/

/-! ### The reader -/

/-- A reader that never falls short and reports the end of the stream by a
call of its own hands out `min n (len r)` bytes without error. -/
theorem Read_full (L : Lib) (hs : ∀ r n, L.readShortBy r n = 0)
    (he : ∀ r n, L.eofWithData r n = false) (r : Reader) (n : Nat) :
    Read L r n =
      match r with
      | [] => ([], some GoError.EOF, [])
      | _ :: _ => (r.take n, none, r.drop n) := by
  cases r with
  | nil => rfl
  | cons x xs =>
    simp only [Read, hs, he, Nat.zero_min, Nat.sub_zero, Bool.false_eq_true, and_false, if_false]
    rcases Nat.le_total n (x :: xs).length with h | h
    · rw [Nat.min_eq_left h]
    · rw [Nat.min_eq_right h, List.take_of_length_le h, List.drop_of_length_le h,
        List.take_of_length_le (Nat.le_refl _), List.drop_of_length_le (Nat.le_refl _)]

/-- Whatever the reader does, a call of `Read` hands out a prefix of the
unread bytes, no longer than the buffer, with a nil error or `io.EOF`. -/
theorem Read_prefix (L : Lib) (r : Reader) (n : Nat) :
    ∃ k e, k ≤ n ∧ k ≤ r.length ∧ (e = none ∨ e = some GoError.EOF) ∧
      Read L r n = (r.take k, e, r.drop k) := by
  cases r with
  | nil => exact ⟨0, some GoError.EOF, Nat.zero_le _, Nat.le_refl _, Or.inr rfl, rfl⟩
  | cons x xs =>
    refine ⟨min n (x :: xs).length - min (L.readShortBy (x :: xs) n) (min n (x :: xs).length - 1),
      _, ?_, ?_, ?_, rfl⟩
    · exact Nat.le_trans (Nat.sub_le _ _) (Nat.min_le_left _ _)
    · exact Nat.le_trans (Nat.sub_le _ _) (Nat.min_le_right _ _)
    · split
      · exact Or.inr rfl
      · exact Or.inl rfl

/-- A reader of the kind of `asciiLib` fills the buffer. -/
theorem Read_asciiLib (r : Reader) (n : Nat) :
    Read asciiLib r n =
      match r with
      | [] => ([], some GoError.EOF, [])
      | _ :: _ => (r.take n, none, r.drop n) :=
  Read_full asciiLib (fun _ _ => rfl) (fun _ _ => rfl) r n

/-- The header parser on five bytes that one call of `Read` hands out. -/
theorem ParseResponseHeader_cons5 (L : Lib) (f a b c d : Nat) (rest : Reader)
    (hread : Read L (f :: a :: b :: c :: d :: rest) 5 = ([f, a, b, c, d], none, rest)) :
    ParseResponseHeader L (f :: a :: b :: c :: d :: rest) =
      if Uint32 [a, b, c, d] = 0 then (Res.err GoError.EOF, rest)
      else (Res.ok ⟨f, Uint32 [a, b, c, d]⟩, rest) := by
  unfold ParseResponseHeader
  rw [hread]
  simp

/-- A full reader hands out five unread bytes at once. -/
theorem Read_full_cons5 (L : Lib) (hs : ∀ r n, L.readShortBy r n = 0)
    (he : ∀ r n, L.eofWithData r n = false) (f a b c d : Nat) (rest : Reader) :
    Read L (f :: a :: b :: c :: d :: rest) 5 = ([f, a, b, c, d], none, rest) := by
  rw [Read_full L hs he]
  rfl

/-- A full reader hands out a whole prefix at once. -/
theorem Read_full_append (L : Lib) (hs : ∀ r n, L.readShortBy r n = 0)
    (he : ∀ r n, L.eofWithData r n = false) (p rest : List Nat) (hp : p ≠ []) :
    Read L (p ++ rest) p.length = (p, none, rest) := by
  rw [Read_full L hs he]
  cases p with
  | nil => exact absurd rfl hp
  | cons x xs =>
    simp only [List.cons_append]
    have ht : List.take (x :: xs).length (x :: (xs ++ rest)) = x :: xs := by simp
    have hd : List.drop (x :: xs).length (x :: (xs ++ rest)) = rest := by simp
    rw [ht, hd]

/-- What `ParseResponseHeader` can return: `io.ErrUnexpectedEOF` after a short
read, the wrapped `io.EOF`, or what the first five unread bytes say. -/
theorem ParseResponseHeader_cases (L : Lib) (r : Reader) :
    (ParseResponseHeader L r).1 = Res.err GoError.ErrUnexpectedEOF ∨
    (ParseResponseHeader L r).1 = Res.err (GoError.wrapf "failed to read header" GoError.EOF) ∨
    ∃ f a b c d rest, r = f :: a :: b :: c :: d :: rest ∧
      ParseResponseHeader L r =
        if Uint32 [a, b, c, d] = 0 then (Res.err GoError.EOF, rest)
        else (Res.ok ⟨f, Uint32 [a, b, c, d]⟩, rest) := by
  obtain ⟨k, e, hk, hkl, he, hR⟩ := Read_prefix L r 5
  unfold ParseResponseHeader
  rw [hR]
  rcases he with he | he
  · subst he
    by_cases h5 : (List.take k r).length = 5
    · right; right
      have hk5 : k = 5 := by
        rw [List.length_take] at h5
        omega
      subst hk5
      match r, hkl with
      | f :: a :: b :: c :: d :: rest, _ =>
        refine ⟨f, a, b, c, d, rest, rfl, ?_⟩
        simp
    · left
      dsimp only
      rw [if_pos h5]
  · subst he
    right; left
    rfl

/-- The payload reader when one call of `Read` hands out the `n` bytes. -/
theorem ParseLengthPrefixedMessage_of_read (L : Lib) (r : Reader) (n : Nat) (hn : n < 2 ^ 32)
    (hle : n ≤ r.length) (hread : Read L r n = (r.take n, none, r.drop n)) :
    ParseLengthPrefixedMessage L r n = (Res.ok (r.take n), r.drop n) := by
  unfold ParseLengthPrefixedMessage
  rw [hread]
  have hl : ¬ toUint32 (List.take n r).length ≠ n := by
    rw [List.length_take, Nat.min_eq_left hle]
    exact not_not.mpr (Nat.mod_eq_of_lt hn)
  dsimp only
  rw [if_neg hl, if_neg (by simp)]

/-- What `ParseLengthPrefixedMessage` can return for a `uint32` length. -/
theorem ParseLengthPrefixedMessage_cases (L : Lib) (r : Reader) (n : Nat) (hn : n < 2 ^ 32) :
    (ParseLengthPrefixedMessage L r n).1 = Res.err GoError.ErrUnexpectedEOF ∨
    (ParseLengthPrefixedMessage L r n).1 = Res.err GoError.EOF ∨
    (n ≤ r.length ∧ ParseLengthPrefixedMessage L r n = (Res.ok (r.take n), r.drop n)) := by
  obtain ⟨k, e, hk, hkl, he, hR⟩ := Read_prefix L r n
  unfold ParseLengthPrefixedMessage
  rw [hR]
  have hlen : (List.take k r).length = k := by
    rw [List.length_take]; omega
  by_cases hkn : k = n
  · subst hkn
    have hl : ¬ toUint32 (List.take k r).length ≠ k := by
      rw [hlen]; exact not_not.mpr (Nat.mod_eq_of_lt hn)
    rcases he with he | he
    · subst he
      right; right
      refine ⟨hkl, ?_⟩
      dsimp only
      rw [if_neg hl, if_neg (by simp)]
    · subst he
      right; left
      dsimp only
      rw [if_neg hl, if_pos rfl]
  · left
    have hl : toUint32 (List.take k r).length ≠ n := by
      rw [hlen, toUint32, Nat.mod_eq_of_lt (by omega)]
      exact hkn
    dsimp only
    rw [if_pos hl]

theorem or_shl (a b i : Nat) (hb : b < 2 ^ i) : (b ||| a <<< i) = a * 2 ^ i + b := by
  rw [Nat.or_comm, Nat.shiftLeft_eq, Nat.mul_comm a, ← Nat.mul_add_lt_is_or hb]

theorem Uint32_PutUint32 (v : Nat) (h : v < 2 ^ 32) (rest : List Nat) :
    Uint32 (PutUint32 v ++ rest) = v := by
  simp only [Uint32, PutUint32, toByte, toUint32, List.cons_append, List.nil_append,
    List.getD_cons_succ, List.getD_cons_zero]
  have h0 : v % 256 < 2 ^ 8 := by omega
  rw [or_shl _ _ 8 h0]
  have h1 : (v >>> 8 % 256) * 2 ^ 8 + v % 256 < 2 ^ 16 := by omega
  rw [or_shl _ _ 16 h1]
  have h2 : (v >>> 16 % 256) * 2 ^ 16 + ((v >>> 8 % 256) * 2 ^ 8 + v % 256) < 2 ^ 24 := by
    omega
  rw [or_shl _ _ 24 h2]
  simp only [Nat.shiftRight_eq_div_pow]
  omega

theorem Uint32_zero : Uint32 [0, 0, 0, 0] = 0 := by
  simp [Uint32, toUint32]

theorem toUint32_le (x : Nat) : toUint32 x ≤ x := Nat.mod_le _ _

theorem readLen_le (a n : Nat) : toUint32 (a + toUint32 n) ≤ a + n := by
  have h1 := toUint32_le (a + toUint32 n)
  have h2 := toUint32_le n
  omega

theorem toUint32_of_lt (x : Nat) (h : x < 2 ^ 32) : toUint32 x = x := Nat.mod_eq_of_lt h

theorem readLen_exact (a n : Nat) (h : a + n < 2 ^ 32) : toUint32 (a + toUint32 n) = a + n := by
  rw [toUint32_of_lt n (by omega), toUint32_of_lt _ h]

theorem sumLen_cons (t : List Nat) (ts : List (List Nat)) :
    sumLen (t :: ts) = t.length + sumLen ts := by
  simp [sumLen]

theorem sumLen_append (xs ys : List (List Nat)) : sumLen (xs ++ ys) = sumLen xs + sumLen ys := by
  simp [sumLen]

theorem trailerLoop_nil (L : Lib) (length : Nat) (st : TrailerVars) :
    trailerLoop L length [] st = trailerFinish st := by
  rw [trailerLoop]

theorem trailerLoop_cons (L : Lib) (length : Nat) (t : List Nat) (ts : List (List Nat))
    (st : TrailerVars) :
    trailerLoop L length (t :: ts) st =
      match trailerBody L length t st with
      | LoopStep.next st1 => trailerLoop L length ts st1
      | LoopStep.done res => res := by
  rw [trailerLoop]

/-- A line with a `:` that fits the declared length and is not a
`grpc-status-details-bin` line leads to the next iteration and leaves
`headerStat` alone. -/
theorem trailerBody_other (L : Lib) (length : Nat) (t : List Nat) (st : TrailerVars)
    (hlen : st.readLen + t.length ≤ length) (hcolon : (Index t 58).isSome = true)
    (hkey : lineKey L t ≠ some (bytesOf "grpc-status-details-bin")) :
    ∃ st1, trailerBody L length t st = LoopStep.next st1 ∧ st1.headerStat = st.headerStat ∧
      st1.readLen ≤ st.readLen + t.length := by
  obtain ⟨i, hi⟩ := Option.isSome_iff_exists.mp hcolon
  have hr := readLen_le st.readLen t.length
  have hnot : ¬ toUint32 (st.readLen + toUint32 t.length) > length := by omega
  have hk : ToLower L (t.take i) ≠ bytesOf "grpc-status-details-bin" := by
    intro h; apply hkey; simp [lineKey, hi, h]
  unfold trailerBody
  simp only [hnot, if_false, hi]
  split
  · split <;> exact ⟨_, rfl, rfl, hr⟩
  · split
    · exact ⟨_, rfl, rfl, hr⟩
    · exact ⟨_, rfl, rfl, hr⟩

/-- A `grpc-status-details-bin` line that fits the declared length and whose
value decodes to `S` leads to the next iteration with `headerStat = S`. -/
theorem trailerBody_details (L : Lib) (length : Nat) (t : List Nat) (st : TrailerVars)
    (S : Status) (hlen : st.readLen + t.length ≤ length)
    (hkey : lineKey L t = some (bytesOf "grpc-status-details-bin"))
    (hdec : decodeDetails L (lineValue L t) = some S) :
    ∃ st1, trailerBody L length t st = LoopStep.next st1 ∧ st1.headerStat = some S ∧
      st1.readLen ≤ st.readLen + t.length := by
  have hr := readLen_le st.readLen t.length
  have hnot : ¬ toUint32 (st.readLen + toUint32 t.length) > length := by omega
  cases hi : Index t 58 with
  | none => simp [lineKey, hi] at hkey
  | some i =>
    have hk : ToLower L (t.take i) = bytesOf "grpc-status-details-bin" := by
      simpa [lineKey, hi] using hkey
    have h1 : bytesOf "grpc-status-details-bin" ≠ bytesOf "grpc-status" := by decide
    have h2 : bytesOf "grpc-status-details-bin" ≠ bytesOf "grpc-message" := by decide
    simp only [lineValue, hi] at hdec
    unfold decodeDetails at hdec
    unfold trailerBody
    simp only [hnot, if_false, hi, hk, h1, h2, if_true]
    split at hdec
    · simp at hdec
    · split at hdec
      · simp at hdec
      · simp only [Option.some.injEq] at hdec
        subst hdec
        exact ⟨_, rfl, rfl, hr⟩

/-- Once `headerStat` is set and the remaining lines fit, have a `:` and hold
no `grpc-status-details-bin` line, the loop ends with that status. -/
theorem trailerLoop_keeps_headerStat (L : Lib) (length : Nat) (S : Status) :
    ∀ (lines : List (List Nat)) (st : TrailerVars),
      st.headerStat = some S → st.readLen + sumLen lines ≤ length →
      (∀ t ∈ lines, (Index t 58).isSome = true) →
      (∀ t ∈ lines, lineKey L t ≠ some (bytesOf "grpc-status-details-bin")) →
      ∃ md, trailerLoop L length lines st = Res.ok (S, md) := by
  intro lines
  induction lines with
  | nil =>
    intro st hS _ _ _
    unfold trailerLoop trailerFinish
    simp only [hS]
    split
    · exact ⟨_, rfl⟩
    · exact ⟨_, rfl⟩
  | cons t ts ih =>
    intro st hS hlen hcolon hkey
    rw [sumLen_cons] at hlen
    obtain ⟨st1, hb, hh, hr⟩ := trailerBody_other L length t st (by omega)
      (hcolon t (List.mem_cons_self _ _)) (hkey t (List.mem_cons_self _ _))
    unfold trailerLoop
    rw [hb]
    exact ih st1 (hh.trans hS) (by omega)
      (fun u hu => hcolon u (List.mem_cons_of_mem _ hu))
      (fun u hu => hkey u (List.mem_cons_of_mem _ hu))

/-- The loop up to and including the one details line. -/
theorem trailerLoop_details (L : Lib) (length : Nat) (S : Status) (d : List Nat)
    (post : List (List Nat)) :
    ∀ (pre : List (List Nat)) (st : TrailerVars),
      st.readLen + sumLen (pre ++ d :: post) ≤ length →
      (∀ t ∈ pre ++ d :: post, (Index t 58).isSome = true) →
      (∀ t ∈ pre ++ post, lineKey L t ≠ some (bytesOf "grpc-status-details-bin")) →
      lineKey L d = some (bytesOf "grpc-status-details-bin") →
      decodeDetails L (lineValue L d) = some S →
      ∃ md, trailerLoop L length (pre ++ d :: post) st = Res.ok (S, md) := by
  intro pre
  induction pre with
  | nil =>
    intro st hlen hcolon hkey hd hdec
    simp only [List.nil_append] at *
    rw [sumLen_cons] at hlen
    obtain ⟨st1, hb, hh, hr⟩ := trailerBody_details L length d st S (by omega) hd hdec
    unfold trailerLoop
    rw [hb]
    exact trailerLoop_keeps_headerStat L length S post st1 hh (by omega)
      (fun u hu => hcolon u (List.mem_cons_of_mem _ hu)) hkey
  | cons t ts ih =>
    intro st hlen hcolon hkey hd hdec
    simp only [List.cons_append] at *
    rw [sumLen_cons] at hlen
    obtain ⟨st1, hb, _, hr⟩ := trailerBody_other L length t st (by omega)
      (hcolon t (List.mem_cons_self _ _)) (hkey t (List.mem_cons_self _ _))
    unfold trailerLoop
    rw [hb]
    exact ih st1 (by omega) (fun u hu => hcolon u (List.mem_cons_of_mem _ hu))
      (fun u hu => hkey u (List.mem_cons_of_mem _ hu)) hd hdec

/-- Precedence of the details status, stated on the tokens that the scanner
hands out: when they fit the declared length, all hold a `:`, and exactly one
of them is a `grpc-status-details-bin` line, whose value decodes to `S`, then
`ParseStatusAndTrailer` returns the status `S`. -/
theorem details_precedence_tokens (L : Lib) (r : Reader) (length : Nat) (S : Status)
    (pre post : List (List Nat)) (d : List Nat)
    (hlines : scanLines r = pre ++ d :: post)
    (hfit : sumLen (scanLines r) ≤ length)
    (hcolon : ∀ t ∈ scanLines r, (Index t 58).isSome = true)
    (hone : ∀ t ∈ pre ++ post, lineKey L t ≠ some (bytesOf "grpc-status-details-bin"))
    (hd : lineKey L d = some (bytesOf "grpc-status-details-bin"))
    (hdec : decodeDetails L (lineValue L d) = some S) :
    statusOf (ParseStatusAndTrailer L r length) = some S := by
  unfold ParseStatusAndTrailer
  rw [hlines] at hfit hcolon ⊢
  obtain ⟨md, h⟩ := trailerLoop_details L length S d post pre TrailerVars.init
    (by simpa [TrailerVars.init] using hfit) hcolon hone hd hdec
  rw [h]
  rfl

/-! ### The line scanner -/

theorem dropCR_concat (l : List Nat) : dropCR (l ++ [13]) = l := by
  simp [dropCR]

theorem scanLinesFrom_cons (b : Nat) (rest cur : List Nat) :
    scanLinesFrom (b :: rest) cur =
      if maxScanTokenSize ≤ cur.length then []
      else if b = 10 then dropCR cur.reverse :: scanLinesFrom rest []
      else scanLinesFrom rest (b :: cur) := rfl

theorem scanLinesFrom_line (rest : List Nat) :
    ∀ (l cur : List Nat), 10 ∉ l → cur.length + l.length < maxScanTokenSize →
      scanLinesFrom (l ++ 10 :: rest) cur = dropCR (cur.reverse ++ l) :: scanLinesFrom rest [] := by
  intro l
  induction l with
  | nil =>
    intro cur _ hlen
    have h : ¬ maxScanTokenSize ≤ cur.length := by simp at hlen; omega
    simp [scanLinesFrom, h]
  | cons x xs ih =>
    intro cur hnl hlen
    have hx : x ≠ 10 := fun h => hnl (by simp [h])
    have hxs : 10 ∉ xs := fun h => hnl (List.mem_cons_of_mem _ h)
    have h : ¬ maxScanTokenSize ≤ cur.length := by simp at hlen; omega
    rw [List.cons_append, scanLinesFrom_cons, if_neg h, if_neg hx,
      ih (x :: cur) hxs (by simp at hlen ⊢; omega)]
    simp

theorem scanLinesFrom_too_long (rest : List Nat) :
    ∀ (l cur : List Nat), 10 ∉ l → maxScanTokenSize ≤ cur.length + l.length →
      scanLinesFrom (l ++ rest) cur = [] := by
  intro l
  induction l with
  | nil =>
    intro cur _ hlen
    have h : maxScanTokenSize ≤ cur.length := by simpa using hlen
    cases rest <;> simp [scanLinesFrom, h]
  | cons x xs ih =>
    intro cur hnl hlen
    have hx : x ≠ 10 := fun h => hnl (by simp [h])
    have hxs : 10 ∉ xs := fun h => hnl (List.mem_cons_of_mem _ h)
    by_cases h : maxScanTokenSize ≤ cur.length
    · simp [scanLinesFrom, h]
    · rw [List.cons_append, scanLinesFrom_cons, if_neg h, if_neg hx]
      exact ih (x :: cur) hxs (by simp at hlen ⊢; omega)


/-! ### Lines of a payload and tokens of the scanner -/

theorem dropCR_length (l : List Nat) : l.length ≤ (dropCR l).length + 1 := by
  unfold dropCR
  split
  · rw [List.length_dropLast]; omega
  · omega

theorem linesFrom_cons (b : Nat) (rest cur : List Nat) :
    linesFrom (b :: rest) cur =
      if b = 10 then dropCR cur.reverse :: linesFrom rest []
      else linesFrom rest (b :: cur) := rfl

/-- The line being read is among the lines, with all the bytes read so far
but a trailing carriage return. -/
theorem linesFrom_current (r : List Nat) :
    ∀ cur : List Nat, r ≠ [] ∨ cur ≠ [] →
      ∃ t ∈ linesFrom r cur, cur.length ≤ t.length + 1 := by
  induction r with
  | nil =>
    intro cur h
    have hc : cur ≠ [] := by
      rcases h with h | h
      · exact absurd rfl h
      · exact h
    refine ⟨dropCR cur.reverse, by simp [linesFrom, hc], ?_⟩
    have := dropCR_length cur.reverse
    rw [List.length_reverse] at this
    exact this
  | cons b rest ih =>
    intro cur _
    rw [linesFrom_cons]
    by_cases hb : b = 10
    · rw [if_pos hb]
      refine ⟨dropCR cur.reverse, List.mem_cons_self _ _, ?_⟩
      have := dropCR_length cur.reverse
      rw [List.length_reverse] at this
      exact this
    · rw [if_neg hb]
      obtain ⟨t, ht, hl⟩ := ih (b :: cur) (Or.inr (List.cons_ne_nil _ _))
      refine ⟨t, ht, ?_⟩
      rw [List.length_cons] at hl
      omega

theorem scanLinesFrom_eq_linesFrom (r : List Nat) :
    ∀ cur : List Nat, (∀ t ∈ linesFrom r cur, t.length + 1 < maxScanTokenSize) →
      scanLinesFrom r cur = linesFrom r cur := by
  induction r with
  | nil =>
    intro cur h
    by_cases hc : cur = []
    · subst hc; rfl
    · obtain ⟨t, ht, hl⟩ := linesFrom_current [] cur (Or.inr hc)
      have hlt := h t ht
      have hn : ¬ maxScanTokenSize ≤ cur.length := by omega
      simp [scanLinesFrom, linesFrom, hn, hc]
  | cons b rest ih =>
    intro cur h
    obtain ⟨t, ht, hl⟩ := linesFrom_current (b :: rest) cur (Or.inl (List.cons_ne_nil _ _))
    have hlt := h t ht
    have hn : ¬ maxScanTokenSize ≤ cur.length := by omega
    rw [scanLinesFrom_cons, if_neg hn]
    rw [linesFrom_cons] at h ⊢
    by_cases hb : b = 10
    · rw [if_pos hb] at h
      rw [if_pos hb, if_pos hb, ih [] (fun u hu => h u (List.mem_cons_of_mem _ hu))]
    · rw [if_neg hb] at h
      rw [if_neg hb, if_neg hb]
      exact ih (b :: cur) h

/-- When every line of a payload is shorter than 65535 bytes, the scanner
hands out exactly the lines of the payload. -/
theorem scanLines_eq_payloadLines (payload : List Nat)
    (hshort : ∀ t ∈ payloadLines payload, t.length + 1 < maxScanTokenSize) :
    scanLines payload = payloadLines payload :=
  scanLinesFrom_eq_linesFrom payload [] hshort

theorem linesFrom_line (rest : List Nat) :
    ∀ (l cur : List Nat), 10 ∉ l →
      linesFrom (l ++ 10 :: rest) cur = dropCR (cur.reverse ++ l) :: linesFrom rest [] := by
  intro l
  induction l with
  | nil =>
    intro cur _
    simp [linesFrom]
  | cons x xs ih =>
    intro cur hnl
    have hx : x ≠ 10 := fun h => hnl (by simp [h])
    have hxs : 10 ∉ xs := fun h => hnl (List.mem_cons_of_mem _ h)
    rw [List.cons_append, linesFrom_cons, if_neg hx, ih (x :: cur) hxs]
    simp

/-! ### A line longer than the scanner's buffer -/

theorem tooLongLine_length : tooLongLine.length = 65538 := by
  unfold tooLongLine
  rw [List.length_cons, List.length_cons, List.length_replicate]

theorem tooLongLine_no_newline : 10 ∉ tooLongLine := by
  unfold tooLongLine
  intro h
  rcases List.mem_cons.mp h with h | h
  · omega
  · rcases List.mem_cons.mp h with h | h
    · omega
    · have := List.eq_of_mem_replicate h
      omega

theorem tooLongLine_dropCR : dropCR tooLongLine = tooLongLine := by
  have e : List.replicate 65536 97 = List.replicate 65535 97 ++ [97] :=
    List.replicate_succ' (n := 65535) (a := 97)
  have hl : tooLongLine.getLast? = some 97 := by
    unfold tooLongLine
    rw [e, ← List.cons_append, ← List.cons_append, List.getLast?_concat]
  unfold dropCR
  rw [hl, if_neg (by decide)]

theorem tooLongLine_colon : Index tooLongLine 58 = some 1 := by
  unfold tooLongLine
  simp [Index]

/-- The scanner stops at a line that does not fit its buffer: it hands out no
token for it and none for the lines after it. -/
theorem scanLinesFrom_tooLongLine (rest : List Nat) :
    scanLinesFrom (tooLongLine ++ rest) [] = [] :=
  scanLinesFrom_too_long rest tooLongLine [] tooLongLine_no_newline
    (by rw [tooLongLine_length]; decide)

theorem scanLines_longLineBetween (first last : List Nat) (h10 : 10 ∉ first)
    (hlen : first.length < maxScanTokenSize) :
    scanLines (longLineBetween first last) = [dropCR first] := by
  unfold scanLines longLineBetween
  rw [scanLinesFrom_line _ first [] h10 (by simpa using hlen), scanLinesFrom_tooLongLine]
  simp

theorem payloadLines_longLineBetween (first last : List Nat) (h10 : 10 ∉ first)
    (h11 : 10 ∉ last) :
    payloadLines (longLineBetween first last) = [dropCR first, tooLongLine, dropCR last] := by
  unfold payloadLines longLineBetween
  rw [linesFrom_line _ first [] h10, linesFrom_line _ tooLongLine [] tooLongLine_no_newline,
    linesFrom_line _ last [] h11]
  simp only [List.reverse_nil, List.nil_append, tooLongLine_dropCR]
  rfl

/-! ### Precedence of the details status -/

theorem dropCR_status5 : dropCR (bytesOf "grpc-status: 5") = bytesOf "grpc-status: 5" := by
  decide

/-- C3 as stated fails: the payload with the lines `grpc-status: 5`, a line
`x:aaa...` of 65538 bytes and `grpc-status-details-bin: CA0=` (details
encoding code Internal) is within the declared length 100000, every line holds
a `:`, and the one details line decodes; yet the returned status has code 5,
because the scanner stops at the line that does not fit its 64 KiB buffer and
the source does not look at `s.Err()`. -/
theorem long_line_hides_details :
    payloadLines (longLineBetween (bytesOf "grpc-status: 5")
        (bytesOf "grpc-status-details-bin: CA0=")) =
      [bytesOf "grpc-status: 5", tooLongLine, bytesOf "grpc-status-details-bin: CA0="] ∧
    sumLen [bytesOf "grpc-status: 5", tooLongLine, bytesOf "grpc-status-details-bin: CA0="] ≤
      100000 ∧
    Index tooLongLine 58 = some 1 ∧
    decodeDetails asciiLib (lineValue asciiLib (bytesOf "grpc-status-details-bin: CA0=")) =
      some ⟨13, [], []⟩ ∧
    statusOf (ParseStatusAndTrailer asciiLib (longLineBetween (bytesOf "grpc-status: 5")
        (bytesOf "grpc-status-details-bin: CA0=")) 100000) = some (status.New 5 []) := by
  refine ⟨?_, ?_, tooLongLine_colon, by decide, ?_⟩
  · rw [payloadLines_longLineBetween _ _ (by decide) (by decide), dropCR_status5]
    rfl
  · rw [sumLen_cons, sumLen_cons, sumLen_cons, tooLongLine_length]
    decide
  · unfold ParseStatusAndTrailer
    rw [scanLines_longLineBetween _ _ (by decide) (by decide), dropCR_status5]
    rfl

/-- C3, amended: when the lines of a trailer payload are each shorter than
65535 bytes, fit the declared length, all hold a `:`, and exactly one of them
is a `grpc-status-details-bin` line, whose value base64-decodes and
status-decodes to `S`, then `ParseStatusAndTrailer` returns without error and
its status is `S`, whatever the other lines are and on whichever side of the
details line they stand. -/
theorem details_status_takes_precedence (L : Lib) (payload : List Nat) (length : Nat)
    (S : Status) (pre post : List (List Nat)) (d : List Nat)
    (hshort : ∀ t ∈ payloadLines payload, t.length + 1 < maxScanTokenSize)
    (hlines : payloadLines payload = pre ++ d :: post)
    (hfit : sumLen (payloadLines payload) ≤ length)
    (hcolon : ∀ t ∈ payloadLines payload, (Index t 58).isSome = true)
    (hone : ∀ t ∈ pre ++ post, lineKey L t ≠ some (bytesOf "grpc-status-details-bin"))
    (hd : lineKey L d = some (bytesOf "grpc-status-details-bin"))
    (hdec : decodeDetails L (lineValue L d) = some S) :
    statusOf (ParseStatusAndTrailer L payload length) = some S := by
  have hs := scanLines_eq_payloadLines payload hshort
  exact details_precedence_tokens L payload length S pre post d (by rw [hs]; exact hlines)
    (by rw [hs]; exact hfit) (by rw [hs]; exact hcolon) hone hd hdec

/-- C3, amended, at the payload `grpc-status: 5`,
`grpc-status-details-bin: CA0=` (details encoding code Internal),
`grpc-message: x`: the status is Internal, not code 5. -/
theorem details_status_takes_precedence_witness :
    statusOf (ParseStatusAndTrailer asciiLib
      (bytesOf "grpc-status: 5\r\ngrpc-status-details-bin: CA0=\r\ngrpc-message: x\r\n") 64) =
        some ⟨13, [], []⟩ :=
  details_status_takes_precedence asciiLib
    (bytesOf "grpc-status: 5\r\ngrpc-status-details-bin: CA0=\r\ngrpc-message: x\r\n") 64
    ⟨13, [], []⟩ [bytesOf "grpc-status: 5"] [bytesOf "grpc-message: x"]
    (bytesOf "grpc-status-details-bin: CA0=")
    (by decide) (by decide) (by decide) (by decide) (by decide) (by decide) (by decide)

/-! ### base64: arithmetic of one quantum -/

theorem and_63 (x : Nat) : x &&& 63 = x % 64 := Nat.and_pow_two_sub_one_eq_mod x 6

theorem or_eq_add (x y i : Nat) (hx : x % 2 ^ i = 0) (hy : y < 2 ^ i) : x ||| y = x + y := by
  have h := Nat.mul_add_lt_is_or hy (x / 2 ^ i)
  have hx2 : 2 ^ i * (x / 2 ^ i) = x := Nat.mul_div_cancel' (Nat.dvd_of_mod_eq_zero hx)
  rw [hx2] at h
  exact h.symm

/-- The 24-bit group of three bytes. -/
theorem group3_eq (a b c : Nat) (hb : b < 256) (hc : c < 256) :
    a <<< 16 ||| b <<< 8 ||| c = a * 65536 + b * 256 + c := by
  simp only [Nat.shiftLeft_eq]
  rw [or_eq_add (a * 2 ^ 16) (b * 2 ^ 8) 16 (by omega) (by omega),
    or_eq_add (a * 2 ^ 16 + b * 2 ^ 8) c 8 (by omega) (by omega)]

/-- The 24-bit value that `decodeQuantum` assembles from four sextets. -/
theorem sextets_eq (s0 s1 s2 s3 : Nat) (h1 : s1 < 64) (h2 : s2 < 64) (h3 : s3 < 64) :
    s0 <<< 18 ||| s1 <<< 12 ||| s2 <<< 6 ||| s3 = s0 * 262144 + s1 * 4096 + s2 * 64 + s3 := by
  simp only [Nat.shiftLeft_eq]
  rw [or_eq_add (s0 * 2 ^ 18) (s1 * 2 ^ 12) 18 (by omega) (by omega),
    or_eq_add (s0 * 2 ^ 18 + s1 * 2 ^ 12) (s2 * 2 ^ 6) 12 (by omega) (by omega),
    or_eq_add (s0 * 2 ^ 18 + s1 * 2 ^ 12 + s2 * 2 ^ 6) s3 6 (by omega) (by omega)]

theorem quantumBytes_four (a b c : Nat) (ha : a < 256) (hb : b < 256) (hc : c < 256) :
    quantumBytes [(a <<< 16 ||| b <<< 8 ||| c) >>> 18 &&& 63,
      (a <<< 16 ||| b <<< 8 ||| c) >>> 12 &&& 63, (a <<< 16 ||| b <<< 8 ||| c) >>> 6 &&& 63,
      (a <<< 16 ||| b <<< 8 ||| c) &&& 63] 4 = [a, b, c] := by
  rw [group3_eq a b c hb hc]
  simp only [quantumBytes, List.getD_cons_zero, List.getD_cons_succ, and_63,
    Nat.shiftRight_eq_div_pow]
  rw [sextets_eq _ _ _ _ (Nat.mod_lt _ (by norm_num)) (Nat.mod_lt _ (by norm_num))
    (Nat.mod_lt _ (by norm_num))]
  simp only [toByte, List.take, Nat.reduceSub, List.cons.injEq, and_true]
  refine ⟨?_, ?_, ?_⟩ <;> omega

theorem group2_eq (a b : Nat) (hb : b < 256) : a <<< 16 ||| b <<< 8 = a * 65536 + b * 256 := by
  simp only [Nat.shiftLeft_eq]
  rw [or_eq_add (a * 2 ^ 16) (b * 2 ^ 8) 16 (by omega) (by omega)]

theorem sextets3_eq (s0 s1 s2 : Nat) (h1 : s1 < 64) (h2 : s2 < 64) :
    s0 <<< 18 ||| s1 <<< 12 ||| s2 <<< 6 = s0 * 262144 + s1 * 4096 + s2 * 64 := by
  simp only [Nat.shiftLeft_eq]
  rw [or_eq_add (s0 * 2 ^ 18) (s1 * 2 ^ 12) 18 (by omega) (by omega),
    or_eq_add (s0 * 2 ^ 18 + s1 * 2 ^ 12) (s2 * 2 ^ 6) 12 (by omega) (by omega)]

theorem sextets2_eq (s0 s1 : Nat) (h1 : s1 < 64) :
    s0 <<< 18 ||| s1 <<< 12 = s0 * 262144 + s1 * 4096 := by
  simp only [Nat.shiftLeft_eq]
  rw [or_eq_add (s0 * 2 ^ 18) (s1 * 2 ^ 12) 18 (by omega) (by omega)]

theorem quantumBytes_three (a b : Nat) (ha : a < 256) (hb : b < 256) :
    quantumBytes [(a <<< 16 ||| b <<< 8) >>> 18 &&& 63, (a <<< 16 ||| b <<< 8) >>> 12 &&& 63,
      (a <<< 16 ||| b <<< 8) >>> 6 &&& 63] 3 = [a, b] := by
  rw [group2_eq a b hb]
  simp only [quantumBytes, List.getD_cons_zero, List.getD_cons_succ, List.getD_nil, and_63,
    Nat.shiftRight_eq_div_pow]
  have hz : ∀ x : Nat, x ||| 0 = x := fun x => Nat.or_zero x
  rw [hz, sextets3_eq _ _ _ (Nat.mod_lt _ (by norm_num)) (Nat.mod_lt _ (by norm_num))]
  simp only [toByte, List.take, Nat.reduceSub, List.cons.injEq, and_true]
  refine ⟨?_, ?_⟩ <;> omega

theorem quantumBytes_two (a : Nat) (ha : a < 256) :
    quantumBytes [(a <<< 16) >>> 18 &&& 63, (a <<< 16) >>> 12 &&& 63] 2 = [a] := by
  simp only [quantumBytes, List.getD_cons_zero, List.getD_cons_succ, List.getD_nil, and_63,
    Nat.shiftRight_eq_div_pow, Nat.shiftLeft_eq a]
  have hz : ∀ x : Nat, x ||| 0 = x := fun x => Nat.or_zero x
  have h0 : (0 : Nat) <<< 6 = 0 := by simp
  rw [h0, hz, hz, sextets2_eq _ _ (Nat.mod_lt _ (by norm_num))]
  simp only [toByte, List.take, Nat.reduceSub, List.cons.injEq, and_true]
  omega

theorem decodeMap_encodeStd (i : Nat) (h : i < 64) :
    decodeMap (encodeStd i) = i ∧ decodeMap (encodeStd i) ≠ 255 := by
  have hd : decodeMap (encodeStd i) = i := by
    unfold encodeStd decodeMap
    split_ifs <;> omega
  exact ⟨hd, by omega⟩

theorem encodeStd_ne_pad (i : Nat) : encodeStd i ≠ 61 := by
  unfold encodeStd
  split_ifs <;> omega

/-! ### base64: decoding what was encoded -/

theorem decodeLoop_group (pd : Bool) (s0 s1 s2 s3 : Nat) (h0 : s0 < 64) (h1 : s1 < 64)
    (h2 : s2 < 64) (h3 : s3 < 64) (rest : List Nat) (si : Nat) (out : List Nat) :
    decodeLoop pd (encodeStd s0 :: encodeStd s1 :: encodeStd s2 :: encodeStd s3 :: rest) si []
        out =
      decodeLoop pd rest (si + 1 + 1 + 1 + 1) [] (out ++ quantumBytes [s0, s1, s2, s3] 4) := by
  obtain ⟨e0, n0⟩ := decodeMap_encodeStd s0 h0
  obtain ⟨e1, n1⟩ := decodeMap_encodeStd s1 h1
  obtain ⟨e2, n2⟩ := decodeMap_encodeStd s2 h2
  obtain ⟨e3, n3⟩ := decodeMap_encodeStd s3 h3
  rw [e0] at n0; rw [e1] at n1; rw [e2] at n2; rw [e3] at n3
  simp [decodeLoop, e0, e1, e2, e3, n0, n1, n2, n3]

theorem decodeLoop_tail2_padded (s0 s1 : Nat) (h0 : s0 < 64) (h1 : s1 < 64) (si : Nat)
    (out : List Nat) :
    decodeLoop true [encodeStd s0, encodeStd s1, 61, 61] si [] out =
      (out ++ quantumBytes [s0, s1] 2, none) := by
  obtain ⟨e0, n0⟩ := decodeMap_encodeStd s0 h0
  obtain ⟨e1, n1⟩ := decodeMap_encodeStd s1 h1
  rw [e0] at n0; rw [e1] at n1
  have hp : decodeMap 61 = 255 := by decide
  simp [decodeLoop, skipNewlines, hp, e0, e1, n0, n1]

theorem decodeLoop_tail3_padded (s0 s1 s2 : Nat) (h0 : s0 < 64) (h1 : s1 < 64) (h2 : s2 < 64)
    (si : Nat) (out : List Nat) :
    decodeLoop true [encodeStd s0, encodeStd s1, encodeStd s2, 61] si [] out =
      (out ++ quantumBytes [s0, s1, s2] 3, none) := by
  obtain ⟨e0, n0⟩ := decodeMap_encodeStd s0 h0
  obtain ⟨e1, n1⟩ := decodeMap_encodeStd s1 h1
  obtain ⟨e2, n2⟩ := decodeMap_encodeStd s2 h2
  rw [e0] at n0; rw [e1] at n1; rw [e2] at n2
  have hp : decodeMap 61 = 255 := by decide
  simp [decodeLoop, skipNewlines, hp, e0, e1, e2, n0, n1, n2]

theorem decodeLoop_tail2_raw (s0 s1 : Nat) (h0 : s0 < 64) (h1 : s1 < 64) (si : Nat)
    (out : List Nat) :
    decodeLoop false [encodeStd s0, encodeStd s1] si [] out =
      (out ++ quantumBytes [s0, s1] 2, none) := by
  obtain ⟨e0, n0⟩ := decodeMap_encodeStd s0 h0
  obtain ⟨e1, n1⟩ := decodeMap_encodeStd s1 h1
  rw [e0] at n0; rw [e1] at n1
  simp [decodeLoop, e0, e1, n0, n1]

theorem decodeLoop_tail3_raw (s0 s1 s2 : Nat) (h0 : s0 < 64) (h1 : s1 < 64) (h2 : s2 < 64)
    (si : Nat) (out : List Nat) :
    decodeLoop false [encodeStd s0, encodeStd s1, encodeStd s2] si [] out =
      (out ++ quantumBytes [s0, s1, s2] 3, none) := by
  obtain ⟨e0, n0⟩ := decodeMap_encodeStd s0 h0
  obtain ⟨e1, n1⟩ := decodeMap_encodeStd s1 h1
  obtain ⟨e2, n2⟩ := decodeMap_encodeStd s2 h2
  rw [e0] at n0; rw [e1] at n1; rw [e2] at n2
  simp [decodeLoop, e0, e1, e2, n0, n1, n2]

theorem dropWhile_append_singleton (p : Nat → Bool) (x : Nat) (hx : p x = false) (l : List Nat) :
    (l ++ [x]).dropWhile p = l.dropWhile p ++ [x] := by
  induction l with
  | nil => simp [List.dropWhile, hx]
  | cons y ys ih =>
    simp only [List.cons_append, List.dropWhile]
    cases hy : p y
    · simp
    · simpa using ih

theorem stripPadding_cons (x : Nat) (hx : x ≠ 61) (xs : List Nat) :
    stripPadding (x :: xs) = x :: stripPadding xs := by
  unfold stripPadding
  rw [List.reverse_cons, dropWhile_append_singleton _ x (by simpa using hx)]
  simp

theorem and_63_lt (x : Nat) : x &&& 63 < 64 := by
  rw [and_63]; exact Nat.mod_lt _ (by norm_num)

/-- Both decoders give back the bytes that were encoded; the second part is
about the encoding without its trailing `=`. -/
theorem decodeLoop_EncodeToString :
    ∀ (b : List Nat), (∀ x ∈ b, x < 256) → ∀ (si : Nat) (out : List Nat),
      decodeLoop true (EncodeToString b) si [] out = (out ++ b, none) ∧
      decodeLoop false (stripPadding (EncodeToString b)) si [] out = (out ++ b, none) ∧
      ((stripPadding (EncodeToString b)).length % 4 = 0 →
        stripPadding (EncodeToString b) = EncodeToString b) ∧
      (EncodeToString b).length % 4 = 0 := by
  intro b
  induction b using EncodeToString.induct with
  | case1 =>
    intro _ si out
    simp [EncodeToString, stripPadding, decodeLoop]
  | case2 a =>
    intro hb si out
    have ha : a < 256 := hb a (by simp)
    have hs : stripPadding [encodeStd ((a <<< 16) >>> 18 &&& 63),
        encodeStd ((a <<< 16) >>> 12 &&& 63), 61, 61] =
        [encodeStd ((a <<< 16) >>> 18 &&& 63), encodeStd ((a <<< 16) >>> 12 &&& 63)] := by
      rw [stripPadding_cons _ (encodeStd_ne_pad _), stripPadding_cons _ (encodeStd_ne_pad _)]
      simp [stripPadding]
    simp only [EncodeToString, hs]
    rw [decodeLoop_tail2_padded _ _ (and_63_lt _) (and_63_lt _),
      decodeLoop_tail2_raw _ _ (and_63_lt _) (and_63_lt _), quantumBytes_two a ha]
    simp
  | case3 a b =>
    intro hb si out
    have ha : a < 256 := hb a (by simp)
    have hb1 : b < 256 := hb b (by simp)
    have hs : stripPadding [encodeStd ((a <<< 16 ||| b <<< 8) >>> 18 &&& 63),
        encodeStd ((a <<< 16 ||| b <<< 8) >>> 12 &&& 63),
        encodeStd ((a <<< 16 ||| b <<< 8) >>> 6 &&& 63), 61] =
        [encodeStd ((a <<< 16 ||| b <<< 8) >>> 18 &&& 63),
          encodeStd ((a <<< 16 ||| b <<< 8) >>> 12 &&& 63),
          encodeStd ((a <<< 16 ||| b <<< 8) >>> 6 &&& 63)] := by
      rw [stripPadding_cons _ (encodeStd_ne_pad _), stripPadding_cons _ (encodeStd_ne_pad _),
        stripPadding_cons _ (encodeStd_ne_pad _)]
      simp [stripPadding]
    simp only [EncodeToString, hs]
    rw [decodeLoop_tail3_padded _ _ _ (and_63_lt _) (and_63_lt _) (and_63_lt _),
      decodeLoop_tail3_raw _ _ _ (and_63_lt _) (and_63_lt _) (and_63_lt _),
      quantumBytes_three a b ha hb1]
    simp
  | case4 a b c rest ih =>
    intro hb si out
    have ha : a < 256 := hb a (by simp)
    have hb1 : b < 256 := hb b (by simp)
    have hc : c < 256 := hb c (by simp)
    have hrest : ∀ x ∈ rest, x < 256 := fun x hx => hb x (by simp [hx])
    simp only [EncodeToString]
    rw [stripPadding_cons _ (encodeStd_ne_pad _), stripPadding_cons _ (encodeStd_ne_pad _),
      stripPadding_cons _ (encodeStd_ne_pad _), stripPadding_cons _ (encodeStd_ne_pad _),
      decodeLoop_group _ _ _ _ _ (and_63_lt _) (and_63_lt _) (and_63_lt _) (and_63_lt _),
      decodeLoop_group _ _ _ _ _ (and_63_lt _) (and_63_lt _) (and_63_lt _) (and_63_lt _),
      quantumBytes_four a b c ha hb1 hc]
    obtain ⟨g1, g2, g3, g4⟩ := ih hrest (si + 1 + 1 + 1 + 1) (out ++ [a, b, c])
    refine ⟨by rw [g1]; simp, by rw [g2]; simp, ?_, ?_⟩
    · intro hlen
      simp only [List.length_cons] at hlen
      rw [g3 (by omega)]
    · simp only [List.length_cons]
      omega

/-- C4: for every byte string `b`, `decodeBase64Value` applied to the padded
standard base64 encoding of `b` returns `b` without error, and applied to the
same encoding with its trailing `=` removed it returns `b` without error as
well. -/
theorem decodeBase64Value_roundtrip (b : List Nat) (hb : ∀ x ∈ b, x < 256) :
    decodeBase64Value (EncodeToString b) = (b, none) ∧
    decodeBase64Value (stripPadding (EncodeToString b)) = (b, none) := by
  obtain ⟨g1, g2, g3, g4⟩ := decodeLoop_EncodeToString b hb 0 []
  simp only [List.nil_append] at g1 g2
  have first : decodeBase64Value (EncodeToString b) = (b, none) := by
    unfold decodeBase64Value DecodeString
    rw [if_pos g4, g1]
  refine ⟨first, ?_⟩
  by_cases hlen : (stripPadding (EncodeToString b)).length % 4 = 0
  · rw [g3 hlen]
    exact first
  · unfold decodeBase64Value DecodeString
    rw [if_neg hlen, g2]

/-- C4 at the four bytes of `hell`, whose encoding `aGVsbA==` has six
characters once the padding is removed. -/
theorem decodeBase64Value_roundtrip_witness :
    stripPadding (EncodeToString (bytesOf "hell")) = bytesOf "aGVsbA" ∧
    decodeBase64Value (EncodeToString (bytesOf "hell")) = (bytesOf "hell", none) ∧
    decodeBase64Value (stripPadding (EncodeToString (bytesOf "hell"))) =
      (bytesOf "hell", none) :=
  ⟨by decide, decodeBase64Value_roundtrip (bytesOf "hell") (by decide)⟩

/-! ### Metadata kept by the loop -/

theorem MD.Get_Set (md : MD) (k k1 : List Nat) (vs : List (List Nat)) :
    MD.Get (MD.Set md k vs) k1 = if k = k1 then vs else MD.Get md k1 := by
  induction md with
  | nil => simp [MD.Set, MD.Get]
  | cons e rest ih =>
    obtain ⟨k0, v0⟩ := e
    simp only [MD.Set]
    split_ifs <;> simp_all [MD.Get]

theorem MD.mem_Set (md : MD) (k : List Nat) (vs : List (List Nat)) (e : List Nat × List (List Nat))
    (he : e ∈ MD.Set md k vs) : e.1 = k ∨ e ∈ md := by
  induction md with
  | nil =>
    simp only [MD.Set, List.mem_singleton] at he
    left; rw [he]
  | cons e0 rest ih =>
    obtain ⟨k0, v0⟩ := e0
    by_cases h0 : k0 = k
    · simp only [MD.Set, h0, if_true, List.mem_cons] at he
      rcases he with he | he
      · left; rw [he]
      · right; exact List.mem_cons_of_mem _ he
    · simp only [MD.Set, h0, if_false, List.mem_cons] at he
      rcases he with he | he
      · right; rw [he]; exact List.mem_cons_self _ _
      · rcases ih he with h | h
        · left; exact h
        · right; exact List.mem_cons_of_mem _ h

theorem mem_reservedKeys (k : List Nat) :
    k ∈ reservedKeys ↔ k = bytesOf "grpc-status" ∨ k = bytesOf "grpc-message" ∨
      k = bytesOf "grpc-status-details-bin" := by
  simp [reservedKeys]

theorem message_ne_status : (bytesOf "grpc-message" = bytesOf "grpc-status") = False :=
  eq_false (by decide)

theorem details_ne_status :
    (bytesOf "grpc-status-details-bin" = bytesOf "grpc-status") = False :=
  eq_false (by decide)

theorem details_ne_message :
    (bytesOf "grpc-status-details-bin" = bytesOf "grpc-message") = False :=
  eq_false (by decide)

/-- What an iteration that goes on to the next one does to `trailer`. -/
theorem trailerBody_next_trailer (L : Lib) (length : Nat) (t : List Nat) (st st1 : TrailerVars)
    (h : trailerBody L length t st = LoopStep.next st1) :
    ∃ k, lineKey L t = some k ∧
      st1.trailer = if k ∈ reservedKeys then st.trailer
        else MD.Append L st.trailer k (lineValue L t) := by
  unfold trailerBody at h
  simp only at h
  split at h
  · simp at h
  · cases hi : Index t 58 with
    | none => simp [hi] at h
    | some i =>
      simp only [hi] at h
      refine ⟨ToLower L (t.take i), by simp [lineKey, hi], ?_⟩
      simp only [mem_reservedKeys, lineValue, hi]
      by_cases h1 : ToLower L (t.take i) = bytesOf "grpc-status"
      · simp only [h1, if_true, true_or] at h ⊢
        cases hp : ParseUint (TrimSpace L (List.drop (i + 1) t)) <;>
          (simp only [hp, LoopStep.next.injEq] at h; rw [← h])
      · by_cases h2 : ToLower L (t.take i) = bytesOf "grpc-message"
        · simp only [h1, h2, message_ne_status, if_true, if_false, true_or, or_true,
            LoopStep.next.injEq] at h ⊢
          rw [← h]
        · by_cases h3 : ToLower L (t.take i) = bytesOf "grpc-status-details-bin"
          · simp only [h1, h2, h3, details_ne_status, details_ne_message, if_true, if_false,
              or_true] at h ⊢
            rcases hb : decodeBase64Value (TrimSpace L (List.drop (i + 1) t)) with ⟨b, _ | n⟩
            · simp only [hb] at h
              cases hs : L.unmarshalStatus b with
              | err text => simp [hs] at h
              | ok s =>
                simp only [hs, LoopStep.next.injEq] at h
                rw [← h]
            · simp [hb] at h
          · simp only [h1, h2, h3, if_false, or_false, LoopStep.next.injEq] at h ⊢
            rw [← h]

/-- An iteration returns a status without error only on the malformed-details
path. -/
theorem trailerBody_done_ok (L : Lib) (length : Nat) (t : List Nat) (st : TrailerVars)
    (x : Status × Option MD) (h : trailerBody L length t st = LoopStep.done (Res.ok x)) :
    lineKey L t = some (bytesOf "grpc-status-details-bin") ∧
      decodeDetails L (lineValue L t) = none := by
  unfold trailerBody at h
  simp only at h
  split at h
  · simp at h
  · cases hi : Index t 58 with
    | none => simp [hi] at h
    | some i =>
      simp only [hi] at h
      by_cases h1 : ToLower L (t.take i) = bytesOf "grpc-status"
      · simp only [h1, if_true] at h
        cases hp : ParseUint (TrimSpace L (List.drop (i + 1) t)) <;> simp [hp] at h
      · by_cases h2 : ToLower L (t.take i) = bytesOf "grpc-message"
        · simp [h1, h2, message_ne_status] at h
        · by_cases h3 : ToLower L (t.take i) = bytesOf "grpc-status-details-bin"
          · refine ⟨by simp [lineKey, hi, h3], ?_⟩
            simp only [h1, h2, h3, details_ne_status, details_ne_message, if_true, if_false] at h
            simp only [decodeDetails, lineValue, hi]
            rcases hb : decodeBase64Value (TrimSpace L (List.drop (i + 1) t)) with ⟨b, _ | n⟩
            · simp only [hb] at h ⊢
              cases hs : L.unmarshalStatus b with
              | err text => rfl
              | ok s => simp [hs] at h
            · rfl
          · simp [h1, h2, h3] at h

theorem lineKey_lower (L : Lib) (hL : ∀ s, ToLower L (ToLower L s) = ToLower L s)
    (t k : List Nat) (hk : lineKey L t = some k) : ToLower L k = k := by
  unfold lineKey at hk
  cases hi : Index t 58 with
  | none => simp [hi] at hk
  | some i =>
    simp only [hi, Option.map_some', Option.some.injEq] at hk
    rw [← hk]
    exact hL _

/-- The metadata that the loop returns, in terms of the metadata it starts
from and the lines it reads. -/
theorem trailerLoop_metadata (L : Lib) (hL : ∀ s, ToLower L (ToLower L s) = ToLower L s)
    (length : Nat) (stat : Status) (md : Option MD) :
    ∀ (lines : List (List Nat)) (st : TrailerVars),
      trailerLoop L length lines st = Res.ok (stat, md) →
      (∀ t ∈ lines, lineKey L t = some (bytesOf "grpc-status-details-bin") →
        decodeDetails L (lineValue L t) ≠ none) →
      (∀ e ∈ st.trailer, e.1 ∉ reservedKeys) →
      (∀ e ∈ md.getD [], e.1 ∉ reservedKeys) ∧
      (∀ k, k ∉ reservedKeys → MD.Get (md.getD []) k =
        MD.Get st.trailer k ++
          (lines.filter (fun t => decide (lineKey L t = some k))).map (lineValue L)) ∧
      md ≠ some [] ∧
      (st.trailer = [] → (∀ t ∈ lines, ∀ k, lineKey L t = some k → k ∈ reservedKeys) →
        md = none) := by
  intro lines
  induction lines with
  | nil =>
    intro st hres _ hinv
    unfold trailerLoop trailerFinish at hres
    simp only [MD.Len] at hres
    split at hres
    · rename_i h0
      simp only [Res.ok.injEq, Prod.mk.injEq] at hres
      have hnil : st.trailer = [] := List.length_eq_zero.mp h0
      rw [← hres.2]
      simp [hnil, MD.Get]
    · rename_i h0
      simp only [Res.ok.injEq, Prod.mk.injEq] at hres
      have hne : st.trailer ≠ [] := fun h => h0 (by simp [h])
      rw [← hres.2]
      refine ⟨by simpa using hinv, by simp, by simpa using hne, fun h => absurd h hne⟩
  | cons t ts ih =>
    intro st hres hdet hinv
    unfold trailerLoop at hres
    cases hb : trailerBody L length t st with
    | done res =>
      simp only [hb] at hres
      subst hres
      have := trailerBody_done_ok L length t st _ hb
      exact absurd this.2 (hdet t (List.mem_cons_self _ _) this.1)
    | next st1 =>
      simp only [hb] at hres
      obtain ⟨k, hk, htr⟩ := trailerBody_next_trailer L length t st st1 hb
      have hdet1 : ∀ u ∈ ts, lineKey L u = some (bytesOf "grpc-status-details-bin") →
          decodeDetails L (lineValue L u) ≠ none :=
        fun u hu => hdet u (List.mem_cons_of_mem _ hu)
      by_cases hres1 : k ∈ reservedKeys
      · rw [if_pos hres1] at htr
        obtain ⟨g1, g2, g3, g4⟩ := ih st1 hres hdet1 (by rw [htr]; exact hinv)
        refine ⟨g1, ?_, g3, ?_⟩
        · intro k1 hk1
          have hne : ¬ (lineKey L t = some k1) := by
            rw [hk]; intro h; simp only [Option.some.injEq] at h; exact hk1 (h ▸ hres1)
          rw [g2 k1 hk1, htr]
          simp [List.filter_cons, hne]
        · intro hnil hall
          exact g4 (by rw [htr]; exact hnil) (fun u hu => hall u (List.mem_cons_of_mem _ hu))
      · rw [if_neg hres1] at htr
        have hlow := lineKey_lower L hL t k hk
        simp only [MD.Append, hlow] at htr
        have hinv1 : ∀ e ∈ st1.trailer, e.1 ∉ reservedKeys := by
          intro e he
          rw [htr] at he
          rcases MD.mem_Set _ _ _ _ he with h | h
          · rw [h]; exact hres1
          · exact hinv e h
        obtain ⟨g1, g2, g3, g4⟩ := ih st1 hres hdet1 hinv1
        refine ⟨g1, ?_, g3, ?_⟩
        · intro k1 hk1
          rw [g2 k1 hk1, htr, MD.Get_Set]
          by_cases hkk : k = k1
          · subst hkk
            simp [List.filter_cons, hk]
          · have hne : ¬ (lineKey L t = some k1) := by
              rw [hk]; intro h; simp only [Option.some.injEq] at h; exact hkk h
            simp [List.filter_cons, hne, hkk]
        · intro _ hall
          exact absurd (hall t (List.mem_cons_self _ _) k hk) hres1

/-- Content of the metadata, stated on the tokens that the scanner hands out:
when `ParseStatusAndTrailer` returns without error and no
`grpc-status-details-bin` token fails to decode, the metadata has no entry
under a reserved key; under every other key it holds the values of the tokens
with that key, in order of arrival; it is never an empty map, and it is absent
when every token has a reserved key. -/
theorem trailer_metadata_tokens (L : Lib) (hL : ∀ s, ToLower L (ToLower L s) = ToLower L s)
    (r : Reader) (length : Nat) (stat : Status) (md : Option MD)
    (hres : ParseStatusAndTrailer L r length = Res.ok (stat, md))
    (hdet : ∀ t ∈ scanLines r, lineKey L t = some (bytesOf "grpc-status-details-bin") →
      decodeDetails L (lineValue L t) ≠ none) :
    (∀ e ∈ md.getD [], e.1 ∉ reservedKeys) ∧
    (∀ k, k ∉ reservedKeys → MD.Get (md.getD []) k =
      ((scanLines r).filter (fun t => decide (lineKey L t = some k))).map (lineValue L)) ∧
    md ≠ some [] ∧
    ((∀ t ∈ scanLines r, ∀ k, lineKey L t = some k → k ∈ reservedKeys) → md = none) := by
  obtain ⟨g1, g2, g3, g4⟩ := trailerLoop_metadata L hL length stat md (scanLines r)
    TrailerVars.init hres hdet (by simp [TrailerVars.init])
  refine ⟨g1, ?_, g3, g4 rfl⟩
  intro k hk
  rw [g2 k hk]
  simp [TrailerVars.init, MD.Get]

theorem lowerByte_idem (c : Nat) : lowerByte (lowerByte c) = lowerByte c := by
  unfold lowerByte
  split_ifs <;> omega

theorem lowerByte_lt (c : Nat) (h : c < 128) : lowerByte c < 128 := by
  unfold lowerByte
  split_ifs <;> omega

theorem asciiLib_ToLower_idem (s : List Nat) :
    ToLower asciiLib (ToLower asciiLib s) = ToLower asciiLib s := by
  by_cases h : s.all (fun c => decide (c < 128)) = true
  · have h2 : (s.map lowerByte).all (fun c => decide (c < 128)) = true := by
      simp only [List.all_eq_true, decide_eq_true_eq, List.mem_map] at h ⊢
      rintro x ⟨y, hy, rfl⟩
      exact lowerByte_lt y (h y hy)
    simp only [ToLower, h, h2, if_true, List.map_map]
    apply List.map_congr_left
    intro c _
    exact lowerByte_idem c
  · simp [ToLower, h, asciiLib]

theorem dropCR_xa : dropCR (bytesOf "x-a: 1") = bytesOf "x-a: 1" := by decide

theorem dropCR_xc : dropCR (bytesOf "x-c: 3") = bytesOf "x-c: 3" := by decide

/-- C5 as stated fails: on the payload with the lines `x-a: 1`, a line
`x:aaa...` of 65538 bytes and `x-c: 3`, with declared length 100000,
`ParseStatusAndTrailer` returns without error and the metadata holds
`x-a: [1]` only: it has no value under `x-c`, although the payload has the
line `x-c: 3`, because the scanner stops at the line that does not fit its
64 KiB buffer. -/
theorem long_line_cuts_metadata :
    payloadLines (longLineBetween (bytesOf "x-a: 1") (bytesOf "x-c: 3")) =
      [bytesOf "x-a: 1", tooLongLine, bytesOf "x-c: 3"] ∧
    lineKey asciiLib (bytesOf "x-c: 3") = some (bytesOf "x-c") ∧
    lineValue asciiLib (bytesOf "x-c: 3") = bytesOf "3" ∧
    ParseStatusAndTrailer asciiLib (longLineBetween (bytesOf "x-a: 1") (bytesOf "x-c: 3"))
      100000 = Res.ok (status.New 0 [], some [(bytesOf "x-a", [bytesOf "1"])]) ∧
    MD.Get [(bytesOf "x-a", [bytesOf "1"])] (bytesOf "x-c") = [] := by
  refine ⟨?_, by decide, by decide, ?_, by decide⟩
  · rw [payloadLines_longLineBetween _ _ (by decide) (by decide), dropCR_xa, dropCR_xc]
  · unfold ParseStatusAndTrailer
    rw [scanLines_longLineBetween _ _ (by decide) (by decide), dropCR_xa]
    rfl

/-- C5, amended: when every line of the trailer payload is shorter than 65535
bytes, `ParseStatusAndTrailer` returns without error and no
`grpc-status-details-bin` line fails to decode (the malformed-details path is
not taken), the metadata has no entry under `grpc-status`, `grpc-message` or
`grpc-status-details-bin`; under every other key it holds the values of the
lines with that key, in order of arrival; it is never an empty map, and it is
absent when every line has a reserved key.  `strings.ToLower` is taken to be
idempotent on the `Lib` at hand. -/
theorem trailer_metadata_content (L : Lib) (hL : ∀ s, ToLower L (ToLower L s) = ToLower L s)
    (payload : List Nat) (length : Nat) (stat : Status) (md : Option MD)
    (hshort : ∀ t ∈ payloadLines payload, t.length + 1 < maxScanTokenSize)
    (hres : ParseStatusAndTrailer L payload length = Res.ok (stat, md))
    (hdet : ∀ t ∈ payloadLines payload,
      lineKey L t = some (bytesOf "grpc-status-details-bin") →
      decodeDetails L (lineValue L t) ≠ none) :
    (∀ e ∈ md.getD [], e.1 ∉ reservedKeys) ∧
    (∀ k, k ∉ reservedKeys → MD.Get (md.getD []) k =
      ((payloadLines payload).filter (fun t => decide (lineKey L t = some k))).map
        (lineValue L)) ∧
    md ≠ some [] ∧
    ((∀ t ∈ payloadLines payload, ∀ k, lineKey L t = some k → k ∈ reservedKeys) →
      md = none) := by
  have hs := scanLines_eq_payloadLines payload hshort
  have h := trailer_metadata_tokens L hL payload length stat md hres (by rw [hs]; exact hdet)
  rw [hs] at h
  exact h

/-- C5, amended, at the payload `grpc-status: 0`, `grpc-message: ok`,
`grpc-status-details-bin: CA0=`, `x-custom: foo`: the metadata is exactly
`x-custom: [foo]`, which is the value of the one line with that key. -/
theorem trailer_metadata_content_witness :
    ParseStatusAndTrailer asciiLib customTrailer 80 =
      Res.ok (⟨13, [], []⟩, some [(bytesOf "x-custom", [bytesOf "foo"])]) ∧
    MD.Get [(bytesOf "x-custom", [bytesOf "foo"])] (bytesOf "x-custom") =
      ((payloadLines customTrailer).filter
        (fun t => decide (lineKey asciiLib t = some (bytesOf "x-custom")))).map
          (lineValue asciiLib) ∧
    (some [(bytesOf "x-custom", [bytesOf "foo"])] : Option MD) ≠ some [] :=
  ⟨by decide,
   (trailer_metadata_content asciiLib asciiLib_ToLower_idem customTrailer 80 ⟨13, [], []⟩
      (some [(bytesOf "x-custom", [bytesOf "foo"])]) (by decide) (by decide) (by decide)).2.1
        (bytesOf "x-custom") (by decide),
   (trailer_metadata_content asciiLib asciiLib_ToLower_idem customTrailer 80 ⟨13, [], []⟩
      (some [(bytesOf "x-custom", [bytesOf "foo"])]) (by decide) (by decide) (by decide)).2.2.1⟩

/-! ### Overrun of the declared length -/

theorem trailerBody_next_readLen (L : Lib) (length : Nat) (t : List Nat) (st st1 : TrailerVars)
    (h : trailerBody L length t st = LoopStep.next st1) :
    st1.readLen = toUint32 (st.readLen + toUint32 t.length) := by
  unfold trailerBody at h
  simp only at h
  split at h
  · simp at h
  · cases hi : Index t 58 with
    | none => simp [hi] at h
    | some i =>
      simp only [hi] at h
      split at h
      · cases hp : ParseUint (TrimSpace L (List.drop (i + 1) t)) <;>
          (simp only [hp, LoopStep.next.injEq] at h; rw [← h])
      · split at h
        · simp only [LoopStep.next.injEq] at h; rw [← h]
        · split at h
          · rcases hb : decodeBase64Value (TrimSpace L (List.drop (i + 1) t)) with ⟨b, _ | n⟩
            · simp only [hb] at h
              cases hs : L.unmarshalStatus b with
              | err text => simp [hs] at h
              | ok s =>
                simp only [hs, LoopStep.next.injEq] at h
                rw [← h]
            · simp [hb] at h
          · simp only [LoopStep.next.injEq] at h; rw [← h]

theorem trailerBody_done_err (L : Lib) (length : Nat) (t : List Nat) (st : TrailerVars)
    (e : GoError) (h : trailerBody L length t st = LoopStep.done (Res.err e)) :
    e = GoError.ErrUnexpectedEOF := by
  unfold trailerBody at h
  simp only at h
  split at h
  · simp only [LoopStep.done.injEq, Res.err.injEq] at h; exact h.symm
  · cases hi : Index t 58 with
    | none => simp only [hi, LoopStep.done.injEq, Res.err.injEq] at h; exact h.symm
    | some i =>
      simp only [hi] at h
      split at h
      · cases hp : ParseUint (TrimSpace L (List.drop (i + 1) t)) <;> simp [hp] at h
      · split at h
        · simp at h
        · split at h
          · rcases hb : decodeBase64Value (TrimSpace L (List.drop (i + 1) t)) with ⟨b, _ | n⟩
            · simp only [hb] at h
              cases hs : L.unmarshalStatus b <;> simp [hs] at h
            · simp [hb] at h
          · simp at h

theorem trailerBody_overrun (L : Lib) (length : Nat) (t : List Nat) (st : TrailerVars)
    (h : length < toUint32 (st.readLen + toUint32 t.length)) :
    trailerBody L length t st = LoopStep.done (Res.err GoError.ErrUnexpectedEOF) := by
  unfold trailerBody
  simp only [gt_iff_lt, h, if_true]

/-- The loop fails at the first line that takes the running count past the
declared length, unless an earlier details line was malformed. -/
theorem trailerLoop_overrun (L : Lib) (length : Nat) (t : List Nat) (post : List (List Nat)) :
    ∀ (pre : List (List Nat)) (st : TrailerVars),
      st.readLen + sumLen pre ≤ length → length < st.readLen + sumLen pre + t.length →
      st.readLen + sumLen pre + t.length < 2 ^ 32 →
      (∀ u ∈ pre, lineKey L u = some (bytesOf "grpc-status-details-bin") →
        decodeDetails L (lineValue L u) ≠ none) →
      trailerLoop L length (pre ++ t :: post) st = Res.err GoError.ErrUnexpectedEOF := by
  intro pre
  induction pre with
  | nil =>
    intro st hfit hover h32 _
    simp only [sumLen, List.map_nil, List.sum_nil, Nat.add_zero] at hfit hover h32
    simp only [List.nil_append]
    unfold trailerLoop
    rw [trailerBody_overrun L length t st (by rw [readLen_exact _ _ h32]; exact hover)]
  | cons u us ih =>
    intro st hfit hover h32 hdet
    rw [sumLen_cons] at hfit hover h32
    simp only [List.cons_append]
    unfold trailerLoop
    cases hb : trailerBody L length u st with
    | done res =>
      simp only
      cases res with
      | ok x =>
        have := trailerBody_done_ok L length u st x hb
        exact absurd this.2 (hdet u (List.mem_cons_self _ _) this.1)
      | err e => rw [trailerBody_done_err L length u st e hb]
    | next st1 =>
      simp only
      have hr := trailerBody_next_readLen L length u st st1 hb
      rw [readLen_exact _ _ (by omega)] at hr
      exact ih st1 (by omega) (by omega) (by omega)
        (fun w hw => hdet w (List.mem_cons_of_mem _ hw))

/-- Overrun, stated on the tokens that the scanner hands out: if the token
`t` is the first that takes the running count past the declared length, that
count is below 2^32 and no `grpc-status-details-bin` token before `t` fails to
decode, then `ParseStatusAndTrailer` fails with `io.ErrUnexpectedEOF`. -/
theorem overrun_detected_tokens (L : Lib) (r : Reader) (length : Nat)
    (pre post : List (List Nat))
    (t : List Nat) (hlines : scanLines r = pre ++ t :: post)
    (hfit : sumLen pre ≤ length) (hover : length < sumLen pre + t.length)
    (h32 : sumLen pre + t.length < 2 ^ 32)
    (hdet : ∀ u ∈ pre, lineKey L u = some (bytesOf "grpc-status-details-bin") →
      decodeDetails L (lineValue L u) ≠ none) :
    ParseStatusAndTrailer L r length = Res.err GoError.ErrUnexpectedEOF := by
  unfold ParseStatusAndTrailer
  rw [hlines]
  exact trailerLoop_overrun L length t post pre TrailerVars.init
    (by simpa [TrailerVars.init] using hfit) (by simpa [TrailerVars.init] using hover)
    (by simpa [TrailerVars.init] using h32) hdet

/-- C6, amended: let every line of the trailer payload be shorter than 65535
bytes and let `t` be the first line that takes the running byte count past the
declared length.  If that count is below 2^32 and no
`grpc-status-details-bin` line before `t` fails to decode, then
`ParseStatusAndTrailer` fails with `io.ErrUnexpectedEOF` and returns neither
a status nor metadata. -/
theorem overrun_detected (L : Lib) (payload : List Nat) (length : Nat)
    (pre post : List (List Nat)) (t : List Nat)
    (hshort : ∀ u ∈ payloadLines payload, u.length + 1 < maxScanTokenSize)
    (hlines : payloadLines payload = pre ++ t :: post)
    (hfit : sumLen pre ≤ length) (hover : length < sumLen pre + t.length)
    (h32 : sumLen pre + t.length < 2 ^ 32)
    (hdet : ∀ u ∈ pre, lineKey L u = some (bytesOf "grpc-status-details-bin") →
      decodeDetails L (lineValue L u) ≠ none) :
    ParseStatusAndTrailer L payload length = Res.err GoError.ErrUnexpectedEOF :=
  overrun_detected_tokens L payload length pre post t
    (by rw [scanLines_eq_payloadLines payload hshort]; exact hlines) hfit hover h32 hdet

/-- C6, amended, at declared length 10 and the body `grpc-status: 0`. -/
theorem overrun_detected_witness :
    ParseStatusAndTrailer asciiLib (bytesOf "grpc-status: 0\r\n") 10 =
      Res.err GoError.ErrUnexpectedEOF :=
  overrun_detected asciiLib (bytesOf "grpc-status: 0\r\n") 10 [] [] (bytesOf "grpc-status: 0")
    (by decide) (by decide) (by decide) (by decide) (by decide) (by decide)

/-! ### The running count is a `uint32` -/

theorem wrapLine_length : wrapLine.length = 65535 := by
  unfold wrapLine
  rw [List.length_cons, List.length_cons, List.length_replicate]

theorem wrapLine_no_newline : 10 ∉ wrapLine := by
  unfold wrapLine
  intro h
  rcases List.mem_cons.mp h with h | h
  · omega
  · rcases List.mem_cons.mp h with h | h
    · omega
    · have := List.eq_of_mem_replicate h
      omega

theorem wrapLine_dropCR : dropCR wrapLine = wrapLine := by
  have e : List.replicate 65533 97 = List.replicate 65532 97 ++ [97] :=
    List.replicate_succ' (n := 65532) (a := 97)
  have hl : wrapLine.getLast? = some 97 := by
    unfold wrapLine
    rw [e, ← List.cons_append, ← List.cons_append, List.getLast?_concat]
  unfold dropCR
  rw [hl, if_neg (by decide)]

theorem wrapLine_colon : Index wrapLine 58 = some 1 := by
  unfold wrapLine
  simp [Index]

theorem wrapLine_key : lineKey asciiLib wrapLine ≠ some (bytesOf "grpc-status-details-bin") := by
  unfold lineKey
  rw [wrapLine_colon]
  unfold wrapLine
  decide

theorem scanLines_replicate (line rest : List Nat) (hnl : 10 ∉ line)
    (hlen : line.length < maxScanTokenSize) :
    ∀ n : Nat, scanLinesFrom ((List.replicate n (line ++ [10])).flatten ++ rest) [] =
      List.replicate n (dropCR line) ++ scanLinesFrom rest [] := by
  intro n
  induction n with
  | zero => simp
  | succ k ih =>
    rw [List.replicate_succ, List.flatten_cons, List.append_assoc, List.append_assoc,
      List.singleton_append, scanLinesFrom_line _ line [] hnl (by simpa using hlen), ih]
    simp [List.replicate_succ]

/-- A line with a `:` that is not a details line and does not take the
`uint32` count past the declared length leads to the next iteration. -/
theorem trailerBody_counted (L : Lib) (length : Nat) (t : List Nat) (st : TrailerVars)
    (hnot : toUint32 (st.readLen + toUint32 t.length) ≤ length)
    (hcolon : (Index t 58).isSome = true)
    (hkey : lineKey L t ≠ some (bytesOf "grpc-status-details-bin")) :
    ∃ st1, trailerBody L length t st = LoopStep.next st1 ∧
      st1.readLen = toUint32 (st.readLen + toUint32 t.length) := by
  obtain ⟨i, hi⟩ := Option.isSome_iff_exists.mp hcolon
  have hnot2 : ¬ toUint32 (st.readLen + toUint32 t.length) > length := by omega
  have hk : ToLower L (t.take i) ≠ bytesOf "grpc-status-details-bin" := by
    intro h; apply hkey; simp [lineKey, hi, h]
  unfold trailerBody
  simp only [hnot2, if_false, hi]
  split
  · split <;> exact ⟨_, rfl, rfl⟩
  · split
    · exact ⟨_, rfl, rfl⟩
    · exact ⟨_, rfl, rfl⟩

theorem trailerLoop_wrapLines (length : Nat) (rest : List (List Nat)) :
    ∀ (n : Nat) (st : TrailerVars), st.readLen + n * 65535 ≤ length → length < 2 ^ 32 →
      ∃ st1, trailerLoop asciiLib length (List.replicate n wrapLine ++ rest) st =
          trailerLoop asciiLib length rest st1 ∧ st1.readLen = st.readLen + n * 65535 := by
  intro n
  induction n with
  | zero =>
    intro st _ _
    exact ⟨st, by simp, by simp⟩
  | succ k ih =>
    intro st hfit h32
    have hexact : toUint32 (st.readLen + toUint32 wrapLine.length) = st.readLen + 65535 := by
      rw [wrapLine_length]
      exact readLen_exact _ _ (by omega)
    obtain ⟨st1, hb, hr⟩ := trailerBody_counted asciiLib length wrapLine st
      (by rw [hexact]; omega) (by rw [wrapLine_colon]; rfl) wrapLine_key
    rw [hexact] at hr
    obtain ⟨st2, h2, hr2⟩ := ih st1 (by rw [hr]; omega) h32
    refine ⟨st2, ?_, by rw [hr2, hr]; ring⟩
    rw [List.replicate_succ, List.cons_append, trailerLoop_cons, hb]
    exact h2

theorem trailerFinish_isSome (st : TrailerVars) : (statusOf (trailerFinish st)).isSome = true := by
  unfold trailerFinish
  by_cases h : MD.Len st.trailer = 0 <;> simp [h, statusOf]

theorem scanLines_wrapBody :
    scanLines wrapBody = List.replicate 65537 wrapLine ++ [bytesOf "y:z"] := by
  unfold scanLines wrapBody
  rw [scanLines_replicate wrapLine _ wrapLine_no_newline (by rw [wrapLine_length]; decide)]
  rw [wrapLine_dropCR]
  have h2 : scanLinesFrom (bytesOf "y:z\n") [] = [bytesOf "y:z"] := by decide
  rw [h2]

theorem linesFrom_replicate (line rest : List Nat) (hnl : 10 ∉ line) :
    ∀ n : Nat, linesFrom ((List.replicate n (line ++ [10])).flatten ++ rest) [] =
      List.replicate n (dropCR line) ++ linesFrom rest [] := by
  intro n
  induction n with
  | zero => simp
  | succ k ih =>
    rw [List.replicate_succ, List.flatten_cons, List.append_assoc, List.append_assoc,
      List.singleton_append, linesFrom_line _ line [] hnl, ih]
    simp [List.replicate_succ]

theorem payloadLines_wrapBody :
    payloadLines wrapBody = List.replicate 65537 wrapLine ++ [bytesOf "y:z"] := by
  unfold payloadLines wrapBody
  rw [linesFrom_replicate wrapLine _ wrapLine_no_newline]
  rw [wrapLine_dropCR]
  have h2 : linesFrom (bytesOf "y:z\n") [] = [bytesOf "y:z"] := by decide
  rw [h2]

theorem sumLen_replicate (n : Nat) (t : List Nat) : sumLen (List.replicate n t) = n * t.length := by
  induction n with
  | zero => simp [sumLen]
  | succ k ih =>
    rw [List.replicate_succ, sumLen_cons, ih]
    ring

/-- With declared length 2^32 - 1 the lines of `wrapBody` sum to 2^32 + 2
bytes, and `ParseStatusAndTrailer` returns a status and no error: the
`uint32` count wraps to 2 at the last line. -/
theorem wrapBody_not_detected :
    sumLen (payloadLines wrapBody) > 4294967295 ∧
    (statusOf (ParseStatusAndTrailer asciiLib wrapBody 4294967295)).isSome = true := by
  constructor
  · rw [payloadLines_wrapBody, sumLen_append, sumLen_replicate, wrapLine_length]
    decide
  · unfold ParseStatusAndTrailer
    rw [scanLines_wrapBody]
    obtain ⟨st1, h1, hr⟩ := trailerLoop_wrapLines 4294967295 [bytesOf "y:z"] 65537
      TrailerVars.init (by decide) (by decide)
    rw [h1]
    have hr2 : st1.readLen = 4294967295 := by rw [hr]; rfl
    obtain ⟨st2, hb, _⟩ := trailerBody_counted asciiLib 4294967295 (bytesOf "y:z") st1
      (by rw [hr2]; decide) (by decide) (by decide)
    rw [trailerLoop_cons, hb]
    simp only
    rw [trailerLoop_nil]
    exact trailerFinish_isSome st2

/-- With declared length 10 the one line of the payload `tooLongLine`, ended
by a line feed, has 65538 bytes, and `ParseStatusAndTrailer` returns a status
and no error: the scanner stops before the loop body runs. -/
theorem longLine_not_detected :
    payloadLines (tooLongLine ++ [10]) = [tooLongLine] ∧
    sumLen [tooLongLine] > 10 ∧
    ParseStatusAndTrailer asciiLib (tooLongLine ++ [10]) 10 =
      Res.ok (status.New 0 [], none) := by
  refine ⟨?_, ?_, ?_⟩
  · unfold payloadLines
    rw [linesFrom_line [] tooLongLine [] tooLongLine_no_newline]
    simp only [List.reverse_nil, List.nil_append, tooLongLine_dropCR]
    rfl
  · rw [sumLen_cons, tooLongLine_length]
    decide
  · unfold ParseStatusAndTrailer scanLines
    rw [scanLinesFrom_tooLongLine]
    rfl

/-- C6 as stated fails, in three ways.  With declared length 30 the lines of
`malformedThenLong` sum to 44 bytes, and `ParseStatusAndTrailer` returns an
Internal status and no error, because the first line takes the
malformed-details exit.  With declared length 2^32 - 1 the lines of
`wrapBody` sum to 2^32 + 2 bytes, and `ParseStatusAndTrailer` returns a
status and no error, because the `uint32` count wraps around.  With declared
length 10 the one line of 65538 bytes of `tooLongLine` makes
`ParseStatusAndTrailer` return a status and no error, because the scanner
stops at a line that does not fit its 64 KiB buffer. -/
theorem overrun_not_always_detected :
    (sumLen (payloadLines malformedThenLong) > 30 ∧
      ParseStatusAndTrailer asciiLib malformedThenLong 30 =
        Res.ok (malformedDetails (corruptInputText 0), none)) ∧
    (sumLen (payloadLines wrapBody) > 4294967295 ∧
      (statusOf (ParseStatusAndTrailer asciiLib wrapBody 4294967295)).isSome = true) ∧
    (payloadLines (tooLongLine ++ [10]) = [tooLongLine] ∧
      sumLen [tooLongLine] > 10 ∧
      ParseStatusAndTrailer asciiLib (tooLongLine ++ [10]) 10 =
        Res.ok (status.New 0 [], none)) :=
  ⟨by decide, wrapBody_not_detected, longLine_not_detected⟩

/-! ### Response reader -/

/-- The header parser on a frame whose five header bytes one call of `Read`
hands out. -/
theorem ParseResponseHeader_frame_of_read (L : Lib) (flag : Nat) (payload rest : List Nat)
    (h1 : payload ≠ []) (h2 : payload.length < 2 ^ 32)
    (hread : Read L (frame flag payload ++ rest) 5 =
      (flag :: PutUint32 (toUint32 payload.length), none, payload ++ rest)) :
    ParseResponseHeader L (frame flag payload ++ rest) =
      (Res.ok ⟨flag, payload.length⟩, payload ++ rest) := by
  have hn : toUint32 payload.length = payload.length := Nat.mod_eq_of_lt h2
  have hu := Uint32_PutUint32 payload.length h2 []
  have hpos : payload.length ≠ 0 := fun h => h1 (List.length_eq_zero.mp h)
  unfold frame at hread ⊢
  rw [hn] at hread ⊢
  simp only [PutUint32, List.cons_append, List.nil_append, List.append_nil] at hu hread ⊢
  rw [ParseResponseHeader_cons5 L _ _ _ _ _ _ hread, hu]
  simp [hpos]

theorem ParseResponseHeader_frame (L : Lib) (hs : ∀ r n, L.readShortBy r n = 0)
    (he : ∀ r n, L.eofWithData r n = false) (flag : Nat) (payload rest : List Nat)
    (h1 : payload ≠ []) (h2 : payload.length < 2 ^ 32) :
    ParseResponseHeader L (frame flag payload ++ rest) =
      (Res.ok ⟨flag, payload.length⟩, payload ++ rest) := by
  apply ParseResponseHeader_frame_of_read L flag payload rest h1 h2
  unfold frame
  simp only [PutUint32, List.cons_append, List.nil_append]
  exact Read_full_cons5 L hs he _ _ _ _ _ _

/-- The payload reader on a payload that one call of `Read` hands out. -/
theorem ParseLengthPrefixedMessage_of_read_append (L : Lib) (p rest : List Nat)
    (h2 : p.length < 2 ^ 32) (hread : Read L (p ++ rest) p.length = (p, none, rest)) :
    ParseLengthPrefixedMessage L (p ++ rest) p.length = (Res.ok p, rest) := by
  have h := ParseLengthPrefixedMessage_of_read L (p ++ rest) p.length h2
    (by rw [List.length_append]; omega)
    (by rw [hread, List.take_left, List.drop_left])
  rw [h, List.take_left, List.drop_left]

theorem ParseLengthPrefixedMessage_append (L : Lib) (hs : ∀ r n, L.readShortBy r n = 0)
    (he : ∀ r n, L.eofWithData r n = false) (p rest : List Nat) (h1 : p ≠ [])
    (h2 : p.length < 2 ^ 32) :
    ParseLengthPrefixedMessage L (p ++ rest) p.length = (Res.ok p, rest) :=
  ParseLengthPrefixedMessage_of_read_append L p rest h2 (Read_full_append L hs he p rest h1)

theorem IsTrailerHeader_128 (n : Nat) : Header.IsTrailerHeader ⟨128, n⟩ = true := by
  simp [Header.IsTrailerHeader, toByte]

theorem IsMessageHeader_128 (n : Nat) : Header.IsMessageHeader ⟨128, n⟩ = false := by
  simp [Header.IsMessageHeader]

/-- On a body that is one trailer frame whose header one call of `Read` hands
out, `bodyToMessage` is the trailer parser followed by `statusResp.Err()`. -/
theorem bodyToMessage_trailer_frame_of_read (L : Lib) (cd : Option Codec)
    (payload : List Nat) (noTrailer : Bool) (hne : payload ≠ [])
    (hlt : payload.length < 2 ^ 32)
    (hread : Read L (frame 128 payload) 5 =
      (128 :: PutUint32 (toUint32 payload.length), none, payload)) :
    bodyToMessage L (frame 128 payload) cd noTrailer =
      match ParseStatusAndTrailer L payload payload.length with
      | Res.err e =>
        ⟨Call.ret (none, some (GoError.wrapf "failed to parse status and trailer" e)), [],
          L.unreadAfterScan payload payload.length⟩
      | Res.ok (statusResp, trailer) =>
        ⟨Call.ret (trailer, statusResp.Err), [], L.unreadAfterScan payload payload.length⟩ := by
  have hh := ParseResponseHeader_frame_of_read L 128 payload [] hne hlt
    (by simpa only [List.append_nil] using hread)
  simp only [List.append_nil] at hh
  unfold bodyToMessage
  rw [hh]
  simp only [IsMessageHeader_128, Bool.false_eq_true, if_false, bodyToMessageTail,
    IsTrailerHeader_128, Bool.not_true]

/-- The same on a reader that fills every buffer. -/
theorem bodyToMessage_trailer_frame (L : Lib) (hs : ∀ r n, L.readShortBy r n = 0)
    (he : ∀ r n, L.eofWithData r n = false) (cd : Option Codec) (payload : List Nat)
    (noTrailer : Bool) (hne : payload ≠ []) (hlt : payload.length < 2 ^ 32) :
    bodyToMessage L (frame 128 payload) cd noTrailer =
      match ParseStatusAndTrailer L payload payload.length with
      | Res.err e =>
        ⟨Call.ret (none, some (GoError.wrapf "failed to parse status and trailer" e)), [],
          L.unreadAfterScan payload payload.length⟩
      | Res.ok (statusResp, trailer) =>
        ⟨Call.ret (trailer, statusResp.Err), [], L.unreadAfterScan payload payload.length⟩ := by
  apply bodyToMessage_trailer_frame_of_read L cd payload noTrailer hne hlt
  unfold frame
  simp only [PutUint32, List.cons_append, List.nil_append]
  exact Read_full_cons5 L hs he _ _ _ _ _ _

theorem decimalFrom_eq (n : Nat) :
    ∀ (fuel : Nat) (acc : List Nat), n < fuel → decimalFrom fuel n acc = decimal n ++ acc := by
  induction n using Nat.strong_induction_on with
  | _ n ih =>
    intro fuel acc hf
    cases fuel with
    | zero => omega
    | succ f =>
      by_cases h0 : n / 10 = 0
      · simp [decimal, decimalFrom, h0]
      · have hlt : n / 10 < n := by omega
        have e1 : decimalFrom (f + 1) n acc = decimalFrom f (n / 10) ((48 + n % 10) :: acc) := by
          simp [decimalFrom, h0]
        have e2 : decimal n = decimalFrom n (n / 10) [48 + n % 10] := by
          simp [decimal, decimalFrom, h0]
        rw [e1, e2, ih (n / 10) hlt f _ (by omega), ih (n / 10) hlt n _ hlt]
        simp

theorem decimal_small (n : Nat) (h : n < 10) : decimal n = [48 + n] := by
  have h0 : n / 10 = 0 := by omega
  have h1 : n % 10 = n := by omega
  simp [decimal, decimalFrom, h0, h1]

theorem decimal_step (n : Nat) (h : 10 ≤ n) : decimal n = decimal (n / 10) ++ [48 + n % 10] := by
  have h0 : ¬ n / 10 = 0 := by omega
  have e2 : decimal n = decimalFrom n (n / 10) [48 + n % 10] := by
    simp [decimal, decimalFrom, h0]
  rw [e2, decimalFrom_eq (n / 10) n _ (by omega)]

theorem decimal_digits (n : Nat) : ∀ x ∈ decimal n, 48 ≤ x ∧ x ≤ 57 := by
  induction n using Nat.strong_induction_on with
  | _ n ih =>
    by_cases h : n < 10
    · rw [decimal_small n h]
      intro x hx
      simp only [List.mem_singleton] at hx
      omega
    · rw [decimal_step n (by omega)]
      intro x hx
      rcases List.mem_append.mp hx with hx | hx
      · exact ih (n / 10) (by omega) x hx
      · simp only [List.mem_singleton] at hx
        omega

theorem decimal_ne_nil (n : Nat) : decimal n ≠ [] := by
  by_cases h : n < 10
  · rw [decimal_small n h]; simp
  · rw [decimal_step n (by omega)]; simp

theorem decimal_length_le (k : Nat) : ∀ n, n < 10 ^ (k + 1) → (decimal n).length ≤ k + 1 := by
  induction k with
  | zero =>
    intro n hn
    rw [decimal_small n (by simpa using hn)]
    simp
  | succ k ih =>
    intro n hn
    by_cases h : n < 10
    · rw [decimal_small n h]; simp
    · rw [decimal_step n (by omega)]
      have : n / 10 < 10 ^ (k + 1) := by
        rw [pow_succ] at hn
        omega
      have := ih (n / 10) this
      simp only [List.length_append, List.length_singleton]
      omega

theorem parseUintLoop_append (xs ys : List Nat) :
    ∀ m, parseUintLoop (xs ++ ys) m = (parseUintLoop xs m).bind (fun v => parseUintLoop ys v) := by
  induction xs with
  | nil => intro m; simp [parseUintLoop]
  | cons x xs ih =>
    intro m
    simp only [List.cons_append, parseUintLoop]
    split_ifs
    · simp
    · exact ih _
    · simp

theorem parseUintLoop_decimal (n : Nat) (h : n < 2 ^ 32) : parseUintLoop (decimal n) 0 = some n := by
  induction n using Nat.strong_induction_on with
  | _ n ih =>
    by_cases h10 : n < 10
    · rw [decimal_small n h10]
      have h1 : 48 ≤ 48 + n ∧ 48 + n ≤ 57 := by omega
      have h2 : ¬ (0 * 10 + (48 + n - 48) > 2 ^ 32 - 1) := by omega
      simp only [parseUintLoop, h1, and_self, if_true, h2, if_false]
      congr 1
      omega
    · rw [decimal_step n (by omega), parseUintLoop_append, ih (n / 10) (by omega) (by omega)]
      have h1 : 48 ≤ 48 + n % 10 ∧ 48 + n % 10 ≤ 57 := by omega
      have h2 : ¬ (n / 10 * 10 + (48 + n % 10 - 48) > 2 ^ 32 - 1) := by omega
      simp only [Option.some_bind, parseUintLoop, h1, and_self, if_true, h2, if_false]
      congr 1
      omega

theorem ParseUint_decimal (n : Nat) (h : n < 2 ^ 32) : ParseUint (decimal n) = some n := by
  unfold ParseUint
  rw [if_neg (decimal_ne_nil n)]
  exact parseUintLoop_decimal n h

/-! ### `strings.TrimSpace` on plain text, and the two lines of a failure trailer -/

theorem TrimSpace_plain (L : Lib) (s : List Nat)
    (h : ∀ x ∈ s, x < 128 ∧ asciiSpace x = false) : TrimSpace L s = s := by
  cases s with
  | nil => rfl
  | cons d ds =>
    have hd := h d (List.mem_cons_self _ _)
    have h1 : ¬ 128 ≤ d := by omega
    simp only [TrimSpace, h1, if_false, hd.2, Bool.false_eq_true]
    cases hr : (d :: ds).reverse with
    | nil => simp at hr
    | cons y ys =>
      have hy : y ∈ d :: ds := by
        rw [← List.mem_reverse, hr]; exact List.mem_cons_self _ _
      have hy2 := h y hy
      have h2 : ¬ 128 ≤ y := by omega
      simp only [trimSpaceStop, h2, if_false, hy2.2, Bool.false_eq_true]
      rw [← hr, List.reverse_reverse]

theorem TrimSpace_space_cons (L : Lib) (s : List Nat) : TrimSpace L (32 :: s) = TrimSpace L s := by
  simp [TrimSpace, asciiSpace]

theorem digit_plain (x : Nat) (h : 48 ≤ x ∧ x ≤ 57) : x < 128 ∧ asciiSpace x = false := by
  refine ⟨by omega, ?_⟩
  simp only [asciiSpace, Bool.or_eq_false_iff, beq_eq_false_iff_ne, ne_eq]
  omega

theorem bytesOf_status :
    bytesOf "grpc-status: " = [103, 114, 112, 99, 45, 115, 116, 97, 116, 117, 115, 58, 32] := by
  decide

theorem bytesOf_message :
    bytesOf "grpc-message: " =
      [103, 114, 112, 99, 45, 109, 101, 115, 115, 97, 103, 101, 58, 32] := by
  decide

theorem ToLower_status (L : Lib) :
    ToLower L [103, 114, 112, 99, 45, 115, 116, 97, 116, 117, 115] = bytesOf "grpc-status" := by
  rfl

theorem ToLower_message (L : Lib) :
    ToLower L [103, 114, 112, 99, 45, 109, 101, 115, 115, 97, 103, 101] =
      bytesOf "grpc-message" := by
  rfl

/-- The iteration for the line `grpc-status: c`. -/
theorem trailerBody_status_line (L : Lib) (length c : Nat) (st : TrailerVars) (hc : c < 2 ^ 32)
    (hfit : st.readLen + (bytesOf "grpc-status: " ++ decimal c).length ≤ length) :
    trailerBody L length (bytesOf "grpc-status: " ++ decimal c) st =
      LoopStep.next { st with
        readLen := toUint32 (st.readLen + toUint32 (bytesOf "grpc-status: " ++ decimal c).length),
        code := c } := by
  have hr := readLen_le st.readLen (bytesOf "grpc-status: " ++ decimal c).length
  have hnot : ¬ toUint32 (st.readLen +
      toUint32 (bytesOf "grpc-status: " ++ decimal c).length) > length := by omega
  have htrim : TrimSpace L (32 :: decimal c) = decimal c := by
    rw [TrimSpace_space_cons]
    exact TrimSpace_plain L _ (fun x hx => digit_plain x (decimal_digits c x hx))
  unfold trailerBody
  simp only [hnot, if_false]
  rw [bytesOf_status]
  simp only [List.cons_append, List.nil_append, Index, Nat.reduceEqDiff, if_false, if_true,
    Option.map_some', Nat.reduceAdd, OfNat.ofNat_ne_zero, OfNat.zero_ne_ofNat, OfNat.ofNat_ne_one,
    List.take_succ_cons, List.take_zero, List.drop_succ_cons, List.drop_zero,
    ToLower_status, htrim, ParseUint_decimal c hc, toUint32_of_lt c hc]

/-- The iteration for the line `grpc-message: m`. -/
theorem trailerBody_message_line (L : Lib) (length : Nat) (m : List Nat) (st : TrailerVars)
    (htrim : TrimSpace L m = m)
    (hfit : st.readLen + (bytesOf "grpc-message: " ++ m).length ≤ length) :
    trailerBody L length (bytesOf "grpc-message: " ++ m) st =
      LoopStep.next { st with
        readLen := toUint32 (st.readLen + toUint32 (bytesOf "grpc-message: " ++ m).length),
        msg := m } := by
  have hr := readLen_le st.readLen (bytesOf "grpc-message: " ++ m).length
  have hnot : ¬ toUint32 (st.readLen +
      toUint32 (bytesOf "grpc-message: " ++ m).length) > length := by omega
  have htrim2 : TrimSpace L (32 :: m) = m := by
    rw [TrimSpace_space_cons]; exact htrim
  unfold trailerBody
  simp only [hnot, if_false]
  rw [bytesOf_message]
  simp only [List.cons_append, List.nil_append, Index, Nat.reduceEqDiff, if_false, if_true,
    Option.map_some', Nat.reduceAdd, OfNat.ofNat_ne_zero, OfNat.zero_ne_ofNat, OfNat.ofNat_ne_one,
    List.take_succ_cons, List.take_zero, List.drop_succ_cons, List.drop_zero,
    ToLower_message, htrim2, message_ne_status]

theorem decimal_length_uint32 (c : Nat) (hc : c < 2 ^ 32) : (decimal c).length ≤ 10 :=
  decimal_length_le 9 c (by omega)

theorem not_mem_status_line (c : Nat) : 10 ∉ bytesOf "grpc-status: " ++ decimal c ++ [13] := by
  intro h
  simp only [List.mem_append, List.mem_singleton] at h
  rcases h with (h | h) | h
  · revert h; decide
  · have := decimal_digits c 10 h; omega
  · omega

theorem not_mem_message_line (m : List Nat) (hnl : 10 ∉ m) :
    10 ∉ bytesOf "grpc-message: " ++ m ++ [13] := by
  intro h
  simp only [List.mem_append, List.mem_singleton] at h
  rcases h with (h | h) | h
  · revert h; decide
  · exact hnl h
  · omega

theorem length_status_prefix : (bytesOf "grpc-status: ").length = 13 := by decide

theorem length_message_prefix : (bytesOf "grpc-message: ").length = 14 := by decide

theorem statusMessageTrailer_length (c : Nat) (m : List Nat) :
    (statusMessageTrailer c m).length = 31 + (decimal c).length + m.length := by
  simp only [statusMessageTrailer, List.length_append, length_status_prefix,
    length_message_prefix, List.length_cons, List.length_nil]
  omega

/-- The scanner hands out the first line of the payload, and then the second
one if it fits its buffer. -/
theorem scanLines_statusMessageTrailer_head (c : Nat) (m : List Nat) (hc : c < 2 ^ 32) :
    scanLines (statusMessageTrailer c m) =
      (bytesOf "grpc-status: " ++ decimal c) ::
        scanLinesFrom (bytesOf "grpc-message: " ++ m ++ [13] ++ [10]) [] := by
  have hd := decimal_length_uint32 c hc
  have e : statusMessageTrailer c m =
      (bytesOf "grpc-status: " ++ decimal c ++ [13]) ++
        10 :: (bytesOf "grpc-message: " ++ m ++ [13] ++ [10]) := by
    simp [statusMessageTrailer, List.append_assoc]
  unfold scanLines
  rw [e, scanLinesFrom_line _ _ [] (not_mem_status_line c)
    (by simp only [List.length_append, length_status_prefix, List.length_cons, List.length_nil,
          maxScanTokenSize]; omega)]
  simp only [List.reverse_nil, List.nil_append]
  rw [dropCR_concat]

theorem scanLines_statusMessageTrailer (c : Nat) (m : List Nat) (hc : c < 2 ^ 32)
    (hnl : 10 ∉ m) (hlen : m.length ≤ 65520) :
    scanLines (statusMessageTrailer c m) =
      [bytesOf "grpc-status: " ++ decimal c, bytesOf "grpc-message: " ++ m] := by
  rw [scanLines_statusMessageTrailer_head c m hc]
  have e : bytesOf "grpc-message: " ++ m ++ [13] ++ [10] =
      (bytesOf "grpc-message: " ++ m ++ [13]) ++ 10 :: [] := by simp
  rw [e, scanLinesFrom_line _ _ [] (not_mem_message_line m hnl)
    (by simp only [List.length_append, length_message_prefix, List.length_cons, List.length_nil,
          maxScanTokenSize]; omega)]
  simp only [List.reverse_nil, List.nil_append]
  rw [dropCR_concat]
  simp [scanLinesFrom]

theorem ParseStatusAndTrailer_statusMessage (L : Lib) (c : Nat) (m : List Nat) (hc : c < 2 ^ 32)
    (htrim : TrimSpace L m = m) (hnl : 10 ∉ m) (hlen : m.length ≤ 65520) :
    ParseStatusAndTrailer L (statusMessageTrailer c m) (statusMessageTrailer c m).length =
      Res.ok (status.New c m, none) := by
  have hl := statusMessageTrailer_length c m
  unfold ParseStatusAndTrailer
  rw [scanLines_statusMessageTrailer c m hc hnl hlen]
  unfold trailerLoop
  rw [trailerBody_status_line L _ c _ hc (by
    simp only [TrailerVars.init, List.length_append, length_status_prefix]; omega)]
  simp only
  unfold trailerLoop
  rw [trailerBody_message_line L _ m _ htrim (by
    have h1 := readLen_le 0 (bytesOf "grpc-status: " ++ decimal c).length
    simp only [TrailerVars.init, List.length_append, length_status_prefix,
      length_message_prefix] at h1 ⊢
    omega)]
  simp [trailerLoop, trailerFinish, TrailerVars.init, MD.Len]

/-- C8, amended: for every status code `c < 2^32` and every message text `m`
that is trimmed, holds no line feed and has at most 65520 bytes (so that the
line `grpc-message: m` fits the 64 KiB buffer of the scanner), when one call
of `Read` hands out the five bytes of the frame header without error,
`bodyToMessage` with `noTrailer = false` on a body made of one trailer frame
with the lines `grpc-status: c` and `grpc-message: m` never calls `Unmarshal`;
it returns no error when `c = 0` and otherwise the error of the status with
code `c` and message `m`. -/
theorem unary_failure (L : Lib) (cd : Option Codec) (c : Nat) (m : List Nat) (hc : c < 2 ^ 32)
    (htrim : TrimSpace L m = m) (hnl : 10 ∉ m) (hlen : m.length ≤ 65520)
    (hread : Read L (frame 128 (statusMessageTrailer c m)) 5 =
      (128 :: PutUint32 (toUint32 (statusMessageTrailer c m).length), none,
        statusMessageTrailer c m)) :
    (bodyToMessage L (frame 128 (statusMessageTrailer c m)) cd false).unmarshals = [] ∧
    (bodyToMessage L (frame 128 (statusMessageTrailer c m)) cd false).out =
      Call.ret (none, if c = 0 then none else some (GoError.statusErr ⟨c, m, []⟩)) := by
  have hl := statusMessageTrailer_length c m
  have hd := decimal_length_uint32 c hc
  have hne : statusMessageTrailer c m ≠ [] := by
    intro h; rw [h] at hl; simp only [List.length_nil] at hl; omega
  rw [bodyToMessage_trailer_frame_of_read L cd _ false hne (by omega) hread,
    ParseStatusAndTrailer_statusMessage L c m hc htrim hnl hlen]
  simp [Status.Err, status.New, codes.OK]

theorem longMessage_length : longMessage.length = 65521 := by
  unfold longMessage
  exact List.length_replicate _ _

theorem longMessage_mem (x : Nat) (h : x ∈ longMessage) : x = 97 := by
  unfold longMessage at h
  exact List.eq_of_mem_replicate h

theorem longMessage_ne_nil : longMessage ≠ [] := by
  intro h
  have := longMessage_length
  rw [h] at this
  exact absurd this (by decide)

theorem longMessage_line_length :
    (bytesOf "grpc-message: " ++ longMessage ++ [13]).length = 65536 := by
  rw [List.length_append, List.length_append, length_message_prefix, longMessage_length]
  rfl

theorem longMessage_no_newline : 10 ∉ longMessage := fun h => by
  have := longMessage_mem 10 h
  omega

theorem scanLines_longMessage :
    scanLines (statusMessageTrailer 5 longMessage) = [bytesOf "grpc-status: " ++ decimal 5] := by
  have hlong : maxScanTokenSize ≤
      ([] : List Nat).length + (bytesOf "grpc-message: " ++ longMessage ++ [13]).length := by
    rw [longMessage_line_length]
    decide
  rw [scanLines_statusMessageTrailer_head 5 longMessage (by decide),
    scanLinesFrom_too_long [10] _ [] (not_mem_message_line longMessage longMessage_no_newline)
      hlong]

theorem longMessage_plain : ∀ x ∈ longMessage, x < 128 ∧ asciiSpace x = false := by
  intro x hx
  rw [longMessage_mem x hx]
  decide

theorem longTrailer_length : (statusMessageTrailer 5 longMessage).length = 65553 := by
  rw [statusMessageTrailer_length, longMessage_length, decimal_small 5 (by decide)]
  rfl

theorem longTrailer_ne_nil : statusMessageTrailer 5 longMessage ≠ [] := by
  intro h
  have := longTrailer_length
  rw [h] at this
  exact absurd this (by decide)

theorem ParseStatusAndTrailer_longMessage :
    ParseStatusAndTrailer asciiLib (statusMessageTrailer 5 longMessage)
      (statusMessageTrailer 5 longMessage).length = Res.ok (status.New 5 [], none) := by
  have hfit : TrailerVars.init.readLen + (bytesOf "grpc-status: " ++ decimal 5).length ≤
      (statusMessageTrailer 5 longMessage).length := by
    rw [longTrailer_length]
    decide
  unfold ParseStatusAndTrailer
  rw [scanLines_longMessage, trailerLoop_cons,
    trailerBody_status_line asciiLib _ 5 _ (by decide) hfit]
  simp only
  rw [trailerLoop_nil]
  rfl

theorem bodyToMessage_longMessage :
    (bodyToMessage asciiLib (frame 128 (statusMessageTrailer 5 longMessage)) (some acceptAll)
      false).out = Call.ret (none, some (GoError.statusErr ⟨5, [], []⟩)) := by
  rw [bodyToMessage_trailer_frame asciiLib (fun _ _ => rfl) (fun _ _ => rfl) _ _ false
    longTrailer_ne_nil (by rw [longTrailer_length]; decide), ParseStatusAndTrailer_longMessage]
  rfl

/-- C8 as stated fails, in two ways.  The message text of 65521 letters `a`
is trimmed and holds no line break, yet for code 5 the error that
`bodyToMessage` returns carries the empty message: the line
`grpc-message: ...` does not fit the buffer of the scanner, `Scan` returns
false, and the loop ends without the message.  And on a reader that hands out
one byte per call of `Read`, the trailer frame with code 5 and the message
`not found` gives `failed to parse response header: unexpected EOF`, not the
error of the status. -/
theorem long_message_is_dropped :
    (TrimSpace asciiLib longMessage = longMessage ∧ 10 ∉ longMessage ∧
      (bodyToMessage asciiLib (frame 128 (statusMessageTrailer 5 longMessage)) (some acceptAll)
        false).out = Call.ret (none, some (GoError.statusErr ⟨5, [], []⟩)) ∧
      GoError.statusErr ⟨5, [], []⟩ ≠ GoError.statusErr ⟨5, longMessage, []⟩) ∧
    (bodyToMessage oneByteLib (frame 128 (statusMessageTrailer 5 (bytesOf "not found")))
      (some acceptAll) false).out =
        Call.ret (none, some (GoError.wrapf "failed to parse response header"
          GoError.ErrUnexpectedEOF)) := by
  refine ⟨⟨TrimSpace_plain asciiLib longMessage longMessage_plain, longMessage_no_newline,
    bodyToMessage_longMessage, ?_⟩, by decide⟩
  intro h
  simp only [GoError.statusErr.injEq, Status.mk.injEq] at h
  exact longMessage_ne_nil h.2.1.symm

/-- C8, amended, at code 5 and the message `not found`, on a reader that
fills the buffer. -/
theorem unary_failure_witness :
    (bodyToMessage asciiLib (frame 128 (statusMessageTrailer 5 (bytesOf "not found")))
      (some acceptAll) false).unmarshals = [] ∧
    (bodyToMessage asciiLib (frame 128 (statusMessageTrailer 5 (bytesOf "not found")))
      (some acceptAll) false).out =
        Call.ret (none, some (GoError.statusErr ⟨5, bytesOf "not found", []⟩)) :=
  unary_failure asciiLib (some acceptAll) 5 (bytesOf "not found") (by decide) (by decide)
    (by decide) (by decide) (by decide)

/-! ### Client stream: receiving before sending -/

/-- C9: on a session whose `resp` is unset, and so on every freshly created
session, `RecvMsg` returns the error `you must send before receiving`, hands
nothing to `Unmarshal` and leaves every field of the session as it was. -/
theorem recv_before_send (L : Lib) (GetCodec : List Nat → Option Codec) :
    (∀ h : Http1ClientStream, h.resp = none →
      (Http1ClientStream.RecvMsg L GetCodec h).out =
        Call.ret (some (GoError.errorf "you must send before receiving")) ∧
      (Http1ClientStream.RecvMsg L GetCodec h).session = h ∧
      (Http1ClientStream.RecvMsg L GetCodec h).unmarshals = []) ∧
    (∀ (url : List Nat) (hdrs : MD), (NewHttp1ClientStream url hdrs).resp = none) := by
  constructor
  · intro h hresp
    unfold Http1ClientStream.RecvMsg
    rw [hresp]
    exact ⟨rfl, rfl, rfl⟩
  · intro url hdrs
    rfl

/-- C9 at the fresh session for the URL `u` with no request headers. -/
theorem recv_before_send_witness :
    (Http1ClientStream.RecvMsg asciiLib (fun _ => some acceptAll)
        (NewHttp1ClientStream [117] [])).out =
      Call.ret (some (GoError.errorf "you must send before receiving")) ∧
    (Http1ClientStream.RecvMsg asciiLib (fun _ => some acceptAll)
        (NewHttp1ClientStream [117] [])).session = NewHttp1ClientStream [117] [] ∧
    (Http1ClientStream.RecvMsg asciiLib (fun _ => some acceptAll)
        (NewHttp1ClientStream [117] [])).unmarshals = [] :=
  (recv_before_send asciiLib (fun _ => some acceptAll)).1 (NewHttp1ClientStream [117] [])
    ((recv_before_send asciiLib (fun _ => some acceptAll)).2 [117] [])

/-! ### Response reader: end of stream at the first header -/

/-- C10 fails in the code on the body without bytes: in both modes, with
every codec and every reader, `bodyToMessage` returns the error
`failed to parse response header: failed to read header: EOF` and an absent
trailer.  `Read` gives `io.EOF`, `ParseResponseHeader` wraps it with
`fmt.Errorf`, and `bodyToMessage` compares the wrapped error with `io.EOF` by
`==`, so the branch that returns `nil, nil` is not taken. -/
theorem empty_body_is_an_error (L : Lib) (cd : Option Codec) (noTrailer : Bool) :
    ParseResponseHeader L [] =
      (Res.err (GoError.wrapf "failed to read header" GoError.EOF), []) ∧
    bodyToMessage L [] cd noTrailer =
      ⟨Call.ret (none, some (GoError.wrapf "failed to parse response header"
        (GoError.wrapf "failed to read header" GoError.EOF))), [], []⟩ :=
  ⟨rfl, rfl⟩

theorem ParseResponseHeader_nil (L : Lib) :
    ParseResponseHeader L [] =
      (Res.err (GoError.wrapf "failed to read header" GoError.EOF), []) := rfl

/-- What the header parser can return on a stream that begins with a frame. -/
theorem ParseResponseHeader_frame_cases (L : Lib) (flag : Nat) (payload rest : List Nat)
    (h1 : payload ≠ []) (h2 : payload.length < 2 ^ 32) :
    (ParseResponseHeader L (frame flag payload ++ rest)).1 = Res.err GoError.ErrUnexpectedEOF ∨
    (ParseResponseHeader L (frame flag payload ++ rest)).1 =
      Res.err (GoError.wrapf "failed to read header" GoError.EOF) ∨
    ParseResponseHeader L (frame flag payload ++ rest) =
      (Res.ok ⟨flag, payload.length⟩, payload ++ rest) := by
  rcases ParseResponseHeader_cases L (frame flag payload ++ rest) with h | h | h
  · exact Or.inl h
  · exact Or.inr (Or.inl h)
  · right; right
    obtain ⟨f, a, b, c, d, tail, hr, hres⟩ := h
    have hn : toUint32 payload.length = payload.length := Nat.mod_eq_of_lt h2
    have hu := Uint32_PutUint32 payload.length h2 []
    have hpos : payload.length ≠ 0 := fun h => h1 (List.length_eq_zero.mp h)
    rw [hres]
    unfold frame at hr
    rw [hn] at hr
    simp only [PutUint32, List.cons_append, List.nil_append, List.append_nil,
      List.cons.injEq] at hu hr
    obtain ⟨hf, ha, hb, hc, hd, ht⟩ := hr
    rw [← hf, ← ha, ← hb, ← hc, ← hd, ← ht, hu, if_neg hpos]

/-- What the payload reader can return on a stream that begins with the
payload. -/
theorem ParseLengthPrefixedMessage_append_cases (L : Lib) (p rest : List Nat)
    (h2 : p.length < 2 ^ 32) :
    (ParseLengthPrefixedMessage L (p ++ rest) p.length).1 = Res.err GoError.ErrUnexpectedEOF ∨
    (ParseLengthPrefixedMessage L (p ++ rest) p.length).1 = Res.err GoError.EOF ∨
    ParseLengthPrefixedMessage L (p ++ rest) p.length = (Res.ok p, rest) := by
  rcases ParseLengthPrefixedMessage_cases L (p ++ rest) p.length h2 with h | h | ⟨_, h⟩
  · exact Or.inl h
  · exact Or.inr (Or.inl h)
  · right; right
    rw [h, List.take_left, List.drop_left]

theorem IsTrailerHeader_of_bit7_clear (g n : Nat) (h : bit7 g = false) :
    Header.IsTrailerHeader ⟨g, n⟩ = false := by
  simp only [bit7, beq_eq_false_iff_ne, ne_eq] at h
  simp only [Header.IsTrailerHeader, toByte, Nat.shiftRight_eq_div_pow, beq_eq_false_iff_ne, ne_eq]
  omega

/-- An error of the first header other than `io.EOF` ends `bodyToMessage`
with an error and without a call of `Unmarshal`. -/
theorem bodyToMessage_header_error (L : Lib) (r : Reader) (cd : Option Codec)
    (noTrailer : Bool) (e : GoError) (h : (ParseResponseHeader L r).1 = Res.err e)
    (hne : e ≠ GoError.EOF) :
    (bodyToMessage L r cd noTrailer).out =
      Call.ret (none, some (GoError.wrapf "failed to parse response header" e)) ∧
    (bodyToMessage L r cd noTrailer).unmarshals = [] := by
  have hp : ParseResponseHeader L r = (Res.err e, (ParseResponseHeader L r).2) := by
    rw [← h]
  unfold bodyToMessage
  rw [hp]
  simp only [hne, if_false, and_self]

/-- An error of the payload reader ends `bodyToMessage` with an error and
without a call of `Unmarshal`. -/
theorem bodyToMessage_body_error (L : Lib) (r r1 : Reader) (cd : Option Codec)
    (noTrailer : Bool) (f n : Nat) (e : GoError) (hf : f = 0 ∨ f = 1)
    (hh : ParseResponseHeader L r = (Res.ok ⟨f, n⟩, r1))
    (h : (ParseLengthPrefixedMessage L r1 n).1 = Res.err e) :
    (bodyToMessage L r cd noTrailer).out =
      Call.ret (none, some (GoError.wrapf "failed to parse the response body" e)) ∧
    (bodyToMessage L r cd noTrailer).unmarshals = [] := by
  have hm : Header.IsMessageHeader ⟨f, n⟩ = true := by
    rcases hf with h | h <;> subst h <;> rfl
  have hp : ParseLengthPrefixedMessage L r1 n =
      (Res.err e, (ParseLengthPrefixedMessage L r1 n).2) := by
    rw [← h]
  unfold bodyToMessage
  rw [hh]
  simp only [hm, if_true]
  rw [hp]
  simp only [and_self]

theorem bodyToMessageTail_unmarshals (L : Lib) (h : Header) (r : Reader) (noTrailer : Bool)
    (calls : List (List Nat)) : (bodyToMessageTail L h r noTrailer calls).unmarshals = calls := by
  unfold bodyToMessageTail
  split
  · split <;> rfl
  · split <;> rfl

/-- After a message frame that is read in full and unmarshals,
`bodyToMessage` with `noTrailer = false` goes on with the second header. -/
theorem bodyToMessage_after_message (L : Lib) (cd : Codec) (f : Nat) (p rest : List Nat)
    (hf : f = 0 ∨ f = 1) (hu : cd.Unmarshal p = none)
    (hh : ParseResponseHeader L (frame f p ++ rest) = (Res.ok ⟨f, p.length⟩, p ++ rest))
    (hb : ParseLengthPrefixedMessage L (p ++ rest) p.length = (Res.ok p, rest)) :
    bodyToMessage L (frame f p ++ rest) (some cd) false =
      match ParseResponseHeader L rest with
      | (Res.err e, r3) =>
        ⟨Call.ret (none, some (GoError.wrapf "failed to parse response header" e)), [p], r3⟩
      | (Res.ok resHeader2, r3) => bodyToMessageTail L resHeader2 r3 false [p] := by
  have hm : Header.IsMessageHeader ⟨f, p.length⟩ = true := by
    rcases hf with h | h <;> subst h <;> rfl
  unfold bodyToMessage
  rw [hh]
  simp only [hm, if_true]
  rw [hb]
  simp only [hu, Bool.not_false, if_true]

/-- What follows a message frame and is not a trailer header makes the second
header fail or be unexpected. -/
theorem second_header_fails (L : Lib) (rest : List Nat) (calls : List (List Nat))
    (hrest : rest.length < 5 ∨ (∃ g tail, rest = g :: 0 :: 0 :: 0 :: 0 :: tail) ∨
      (∃ g a b c d tail, rest = g :: a :: b :: c :: d :: tail ∧ bit7 g = false)) :
    BodyResult.failed
      (match ParseResponseHeader L rest with
      | (Res.err e, r3) =>
        ⟨Call.ret (none, some (GoError.wrapf "failed to parse response header" e)), calls, r3⟩
      | (Res.ok resHeader2, r3) => bodyToMessageTail L resHeader2 r3 false calls) = true := by
  rcases ParseResponseHeader_cases L rest with h | h | ⟨g, a, b, c, d, tail, hr, hres⟩
  · have hp : ParseResponseHeader L rest =
        (Res.err GoError.ErrUnexpectedEOF, (ParseResponseHeader L rest).2) := by
      rw [← h]
    rw [hp]
    rfl
  · have hp : ParseResponseHeader L rest =
        (Res.err (GoError.wrapf "failed to read header" GoError.EOF),
          (ParseResponseHeader L rest).2) := by
      rw [← h]
    rw [hp]
    rfl
  · rw [hres]
    by_cases hz : Uint32 [a, b, c, d] = 0
    · rw [if_pos hz]
      rfl
    · rw [if_neg hz]
      rcases hrest with h | ⟨g1, tail1, h⟩ | ⟨g1, a1, b1, c1, d1, tail1, h, hbit⟩
      · rw [hr] at h
        simp only [List.length_cons] at h
        omega
      · rw [hr] at h
        simp only [List.cons.injEq] at h
        obtain ⟨_, ha, hb, hc, hd, _⟩ := h
        subst ha hb hc hd
        exact absurd Uint32_zero hz
      · rw [hr] at h
        simp only [List.cons.injEq] at h
        obtain ⟨hg, _⟩ := h
        subst hg
        simp only [bodyToMessageTail, IsTrailerHeader_of_bit7_clear g _ hbit, Bool.not_false,
          if_true]
        rfl

/-- C11: when a body starts with a message frame (flag 0 or 1, non-empty
payload shorter than 2^32 that unmarshals) and what follows is the end of
input, fewer than 5 bytes, a header with length zero, or a header whose flag
has bit 7 clear, `bodyToMessage` with `noTrailer = false` returns an error,
however the reader hands out the bytes; and on a reader that fills every
buffer it has handed the payload to `Unmarshal`. -/
theorem message_without_trailer (L : Lib) (cd : Codec) (f : Nat) (p rest : List Nat)
    (hf : f = 0 ∨ f = 1) (hp : p ≠ []) (hlen : p.length < 2 ^ 32)
    (hu : cd.Unmarshal p = none)
    (hrest : rest.length < 5 ∨ (∃ g tail, rest = g :: 0 :: 0 :: 0 :: 0 :: tail) ∨
      (∃ g a b c d tail, rest = g :: a :: b :: c :: d :: tail ∧ bit7 g = false)) :
    (bodyToMessage L (frame f p ++ rest) (some cd) false).failed = true ∧
    ((∀ r n, L.readShortBy r n = 0) → (∀ r n, L.eofWithData r n = false) →
      (bodyToMessage L (frame f p ++ rest) (some cd) false).unmarshals = [p]) := by
  constructor
  · rcases ParseResponseHeader_frame_cases L f p rest hp hlen with h | h | hh
    · have := (bodyToMessage_header_error L _ (some cd) false _ h (by simp)).1
      simp only [BodyResult.failed, this]
    · have := (bodyToMessage_header_error L _ (some cd) false _ h (by simp)).1
      simp only [BodyResult.failed, this]
    · rcases ParseLengthPrefixedMessage_append_cases L p rest hlen with h | h | hb
      · have := (bodyToMessage_body_error L _ _ (some cd) false f _ _ hf hh h).1
        simp only [BodyResult.failed, this]
      · have := (bodyToMessage_body_error L _ _ (some cd) false f _ _ hf hh h).1
        simp only [BodyResult.failed, this]
      · rw [bodyToMessage_after_message L cd f p rest hf hu hh hb]
        exact second_header_fails L rest [p] hrest
  · intro hs he
    rw [bodyToMessage_after_message L cd f p rest hf hu
      (ParseResponseHeader_frame L hs he f p rest hp hlen)
      (ParseLengthPrefixedMessage_append L hs he p rest hp hlen)]
    split
    · rfl
    · exact bodyToMessageTail_unmarshals L _ _ false [p]

/-- C11 at a message frame followed by a second message header: the error is
`unexpected header`. -/
theorem message_without_trailer_witness :
    (bodyToMessage asciiLib (frame 0 [1, 2, 3] ++ [0, 0, 0, 0, 1, 9]) (some acceptAll)
      false).failed = true ∧
    (bodyToMessage asciiLib (frame 0 [1, 2, 3] ++ [0, 0, 0, 0, 1, 9]) (some acceptAll)
      false).unmarshals = [[1, 2, 3]] :=
  ⟨(message_without_trailer asciiLib acceptAll 0 [1, 2, 3] [0, 0, 0, 0, 1, 9] (Or.inl rfl)
      (by decide) (by decide) rfl
      (Or.inr (Or.inr ⟨0, 0, 0, 0, 1, [9], rfl, by decide⟩))).1,
   (message_without_trailer asciiLib acceptAll 0 [1, 2, 3] [0, 0, 0, 0, 1, 9] (Or.inl rfl)
      (by decide) (by decide) rfl
      (Or.inr (Or.inr ⟨0, 0, 0, 0, 1, [9], rfl, by decide⟩))).2
      (fun _ _ => rfl) (fun _ _ => rfl)⟩

/-! ### Response reader: successive calls in no-trailer mode -/

/-- For a flag byte, `IsTrailerHeader` is the test of bit 7. -/
theorem IsTrailerHeader_eq_bit7 (f n : Nat) (hf : f < 256) :
    Header.IsTrailerHeader ⟨f, n⟩ = bit7 f := by
  have h1 : f / 128 % 256 = f / 128 := Nat.mod_eq_of_lt (by omega)
  have h2 : f / 128 % 2 = f / 128 := Nat.mod_eq_of_lt (by omega)
  simp only [Header.IsTrailerHeader, bit7, toByte, Nat.shiftRight_eq_div_pow]
  rw [show (2 : Nat) ^ 7 = 128 from rfl, h1, h2]

/-- In no-trailer mode, on a reader that fills every buffer, a first frame
whose flag is neither 0 nor 1 and has bit 7 clear ends the call without error,
without `Unmarshal` and with the payload unread. -/
theorem unknown_flag_noTrailer (L : Lib) (hs : ∀ r n, L.readShortBy r n = 0)
    (he : ∀ r n, L.eofWithData r n = false) (cd : Option Codec) (f : Nat) (p rest : List Nat)
    (h0 : f ≠ 0) (h1 : f ≠ 1) (hbit : bit7 f = false) (hp : p ≠ []) (hlen : p.length < 2 ^ 32) :
    bodyToMessage L (frame f p ++ rest) cd true = ⟨Call.ret (none, none), [], p ++ rest⟩ := by
  have hm : Header.IsMessageHeader ⟨f, p.length⟩ = false := by
    simp [Header.IsMessageHeader, h0, h1]
  unfold bodyToMessage
  rw [ParseResponseHeader_frame L hs he f p _ hp hlen]
  simp only [hm, Bool.false_eq_true, if_false, bodyToMessageTail,
    IsTrailerHeader_of_bit7_clear f p.length hbit, Bool.not_false, if_true]

/-- C13 fails in no-trailer mode: on the body `02 00 00 00 01 09` (flag 2, bit
7 clear, length 1) `bodyToMessage` with `noTrailer = true` returns a nil
trailer and a nil error, calls no `Unmarshal` and leaves the payload byte
unread, whereas with `noTrailer = false` it returns `unexpected header`. -/
theorem unknown_flag_accepted_silently :
    bit7 2 = false ∧
    bodyToMessage asciiLib [2, 0, 0, 0, 1, 9] (some acceptAll) true =
      ⟨Call.ret (none, none), [], [9]⟩ ∧
    bodyToMessage asciiLib [2, 0, 0, 0, 1, 9] (some acceptAll) false =
      ⟨Call.ret (none, some (GoError.errorf "unexpected header")), [], [9]⟩ := by
  decide

/-! ### Short reads -/

theorem Index_append_sep (K V : List Nat) (hK : 58 ∉ K) :
    Index (K ++ 58 :: V) 58 = some K.length := by
  induction K with
  | nil => simp [Index]
  | cons x xs ih =>
    have hx : x ≠ 58 := fun h => hK (by simp [h])
    have hxs : 58 ∉ xs := fun h => hK (List.mem_cons_of_mem _ h)
    simp [Index, hx, ih hxs]

theorem lineKey_append_sep (L : Lib) (K V : List Nat) (hK : 58 ∉ K) :
    lineKey L (K ++ 58 :: V) = some (ToLower L K) := by
  simp [lineKey, Index_append_sep K V hK]

theorem lineValue_append_sep (L : Lib) (K V : List Nat) (hK : 58 ∉ K) :
    lineValue L (K ++ 58 :: V) = TrimSpace L V := by
  simp [lineValue, Index_append_sep K V hK]

/-- C15 as stated fails: the key is lower-cased but not trimmed.  The lines
` grpc-status: 5` and `Grpc-Status : 5` leave the status code at 0 and are
stored in the metadata under the keys ` grpc-status` and `grpc-status `. -/
theorem key_is_not_trimmed :
    ParseStatusAndTrailer asciiLib (bytesOf " grpc-status: 5\r\n") 17 =
      Res.ok (status.New 0 [], some [(bytesOf " grpc-status", [bytesOf "5"])]) ∧
    ParseStatusAndTrailer asciiLib (bytesOf "Grpc-Status : 5\r\n") 17 =
      Res.ok (status.New 0 [], some [(bytesOf "grpc-status ", [bytesOf "5"])]) := by
  decide

/-- C15, amended: a line `K:V` (`K` without `:`) that fits the declared
length is handled under the key `strings.ToLower(K)`, which is not trimmed,
with the value `strings.TrimSpace(V)`: under `grpc-status` the value sets the
code and the metadata stays as it is, under `grpc-message` it sets the
message, and under a key that is not reserved it is appended to the metadata
under that key. -/
theorem key_lowercased_value_trimmed (L : Lib) (length : Nat) (K V : List Nat)
    (st : TrailerVars) (hK : 58 ∉ K)
    (hfit : toUint32 (st.readLen + toUint32 (K ++ 58 :: V).length) ≤ length) :
    lineKey L (K ++ 58 :: V) = some (ToLower L K) ∧
    lineValue L (K ++ 58 :: V) = TrimSpace L V ∧
    (ToLower L K = bytesOf "grpc-status" →
      trailerBody L length (K ++ 58 :: V) st = LoopStep.next { st with
        readLen := toUint32 (st.readLen + toUint32 (K ++ 58 :: V).length),
        code := match ParseUint (TrimSpace L V) with
          | some n => toUint32 n
          | none => codes.Unknown }) ∧
    (ToLower L K = bytesOf "grpc-message" →
      trailerBody L length (K ++ 58 :: V) st = LoopStep.next { st with
        readLen := toUint32 (st.readLen + toUint32 (K ++ 58 :: V).length),
        msg := TrimSpace L V }) ∧
    (ToLower L K ∉ reservedKeys →
      trailerBody L length (K ++ 58 :: V) st = LoopStep.next { st with
        readLen := toUint32 (st.readLen + toUint32 (K ++ 58 :: V).length),
        trailer := MD.Append L st.trailer (ToLower L K) (TrimSpace L V) }) := by
  have hnot : ¬ toUint32 (st.readLen + toUint32 (K ++ 58 :: V).length) > length := by omega
  have hi := Index_append_sep K V hK
  have htake : List.take K.length (K ++ 58 :: V) = K := by simp
  have hdrop : List.drop (K.length + 1) (K ++ 58 :: V) = V := by
    rw [← List.drop_drop, List.drop_left]
    rfl
  refine ⟨lineKey_append_sep L K V hK, lineValue_append_sep L K V hK, ?_, ?_, ?_⟩
  · intro hk
    unfold trailerBody
    simp only [hnot, if_false, hi, htake, hdrop, hk, if_true]
    cases ParseUint (TrimSpace L V) <;> rfl
  · intro hk
    unfold trailerBody
    simp only [hnot, if_false, hi, htake, hdrop, hk, message_ne_status, if_true]
  · intro hk
    rw [mem_reservedKeys] at hk
    have h1 : ToLower L K ≠ bytesOf "grpc-status" := fun h => hk (Or.inl h)
    have h2 : ToLower L K ≠ bytesOf "grpc-message" := fun h => hk (Or.inr (Or.inl h))
    have h3 : ToLower L K ≠ bytesOf "grpc-status-details-bin" :=
      fun h => hk (Or.inr (Or.inr h))
    unfold trailerBody
    simp only [hnot, if_false, hi, htake, hdrop, h1, h2, h3]

/-- C15, amended, at the line `Grpc-Status: 5`: the code becomes 5 and the
metadata stays empty. -/
theorem key_lowercased_value_trimmed_witness :
    trailerBody asciiLib 14 (bytesOf "Grpc-Status" ++ 58 :: bytesOf " 5") TrailerVars.init =
      LoopStep.next { TrailerVars.init with
        readLen := toUint32 (TrailerVars.init.readLen +
          toUint32 (bytesOf "Grpc-Status" ++ 58 :: bytesOf " 5").length),
        code := match ParseUint (TrimSpace asciiLib (bytesOf " 5")) with
          | some n => toUint32 n
          | none => codes.Unknown } ∧
    ParseStatusAndTrailer asciiLib (bytesOf "Grpc-Status: 5\r\n") 16 =
      Res.ok (status.New 5 [], none) :=
  ⟨(key_lowercased_value_trimmed asciiLib 14 (bytesOf "Grpc-Status") (bytesOf " 5")
      TrailerVars.init (by decide) (by decide)).2.2.1 (by decide),
   by decide⟩

/-! ### Trailer parser: malformed status details -/

theorem HasPrefix_append (p s : List Nat) : HasPrefix (p ++ s) p = true := by
  induction p with
  | nil => cases s <;> rfl
  | cons x xs ih => simp [HasPrefix, ih]

theorem isMasked_malformedDetails (text : List Nat) :
    isMasked (Res.ok (malformedDetails text, none)) = true := by
  simp [isMasked, malformedDetails, status.New, HasPrefix_append]

/-- A line with a `:` that fits the declared length leads to the next
iteration or to the return of a masked status, never to an error. -/
theorem trailerBody_fit_colon (L : Lib) (length : Nat) (t : List Nat) (st : TrailerVars)
    (hlen : st.readLen + t.length ≤ length) (hcolon : (Index t 58).isSome = true) :
    (∃ st1, trailerBody L length t st = LoopStep.next st1 ∧
      st1.readLen ≤ st.readLen + t.length) ∨
    ∃ text, trailerBody L length t st = LoopStep.done (Res.ok (malformedDetails text, none)) := by
  obtain ⟨i, hi⟩ := Option.isSome_iff_exists.mp hcolon
  have hr := readLen_le st.readLen t.length
  have hnot : ¬ toUint32 (st.readLen + toUint32 t.length) > length := by omega
  unfold trailerBody
  simp only [hnot, if_false, hi]
  split
  · left
    split <;> exact ⟨_, rfl, hr⟩
  · split
    · left; exact ⟨_, rfl, hr⟩
    · split
      · rcases hb : decodeBase64Value (TrimSpace L (List.drop (i + 1) t)) with ⟨b, _ | n⟩
        · simp only
          cases hs : L.unmarshalStatus b with
          | err text => right; exact ⟨_, rfl⟩
          | ok s => left; exact ⟨_, rfl, hr⟩
        · right; exact ⟨_, rfl⟩
      · left; exact ⟨_, rfl, hr⟩

/-- A details line that fits the declared length and does not decode makes
the loop return a masked status. -/
theorem trailerBody_malformed (L : Lib) (length : Nat) (t : List Nat) (st : TrailerVars)
    (hlen : st.readLen + t.length ≤ length)
    (hkey : lineKey L t = some (bytesOf "grpc-status-details-bin"))
    (hbad : decodeDetails L (lineValue L t) = none) :
    ∃ text, trailerBody L length t st = LoopStep.done (Res.ok (malformedDetails text, none)) := by
  have hcolon : (Index t 58).isSome = true := by
    cases hi : Index t 58 with
    | none => simp [lineKey, hi] at hkey
    | some i => rfl
  rcases trailerBody_fit_colon L length t st hlen hcolon with ⟨st1, hb, _⟩ | h
  · exfalso
    obtain ⟨i, hi⟩ := Option.isSome_iff_exists.mp hcolon
    have hk : ToLower L (t.take i) = bytesOf "grpc-status-details-bin" := by
      simpa [lineKey, hi] using hkey
    have hr := readLen_le st.readLen t.length
    have hnot : ¬ toUint32 (st.readLen + toUint32 t.length) > length := by omega
    simp only [decodeDetails, lineValue, hi] at hbad
    unfold trailerBody at hb
    simp only [hnot, if_false, hi, hk, details_ne_status, details_ne_message, if_true] at hb
    rcases hd : decodeBase64Value (TrimSpace L (List.drop (i + 1) t)) with ⟨b, _ | n⟩
    · simp only [hd] at hb hbad
      cases hs : L.unmarshalStatus b with
      | err text => simp [hs] at hb
      | ok s => simp [hs] at hbad
    · simp [hd] at hb
  · exact h

theorem trailerLoop_masked (L : Lib) (length : Nat) (d : List Nat) (post : List (List Nat)) :
    ∀ (pre : List (List Nat)) (st : TrailerVars),
      st.readLen + sumLen pre + d.length ≤ length →
      (∀ t ∈ pre, (Index t 58).isSome = true) →
      lineKey L d = some (bytesOf "grpc-status-details-bin") →
      decodeDetails L (lineValue L d) = none →
      isMasked (trailerLoop L length (pre ++ d :: post) st) = true := by
  intro pre
  induction pre with
  | nil =>
    intro st hfit _ hkey hbad
    simp only [sumLen, List.map_nil, List.sum_nil, Nat.add_zero] at hfit
    obtain ⟨text, hb⟩ := trailerBody_malformed L length d st hfit hkey hbad
    rw [List.nil_append, trailerLoop_cons, hb]
    exact isMasked_malformedDetails text
  | cons u us ih =>
    intro st hfit hcolon hkey hbad
    rw [sumLen_cons] at hfit
    rw [List.cons_append, trailerLoop_cons]
    rcases trailerBody_fit_colon L length u st (by omega) (hcolon u (List.mem_cons_self _ _))
      with ⟨st1, hb, hr⟩ | ⟨text, hb⟩
    · rw [hb]
      exact ih st1 (by omega) (fun w hw => hcolon w (List.mem_cons_of_mem _ hw)) hkey hbad
    · rw [hb]
      exact isMasked_malformedDetails text

/-- C16 as stated fails: the one line of the payload is a
`grpc-status-details-bin` line whose value `!` is not base64, and with declared
length 10 `ParseStatusAndTrailer` returns `io.ErrUnexpectedEOF`, because the
26 bytes of the line are counted against the declared length before the value
is looked at. -/
theorem malformed_details_after_overrun :
    scanLines (bytesOf "grpc-status-details-bin: !\r\n") = [bytesOf "grpc-status-details-bin: !"] ∧
    decodeDetails asciiLib (lineValue asciiLib (bytesOf "grpc-status-details-bin: !")) = none ∧
    ParseStatusAndTrailer asciiLib (bytesOf "grpc-status-details-bin: !\r\n") 10 =
      Res.err GoError.ErrUnexpectedEOF := by
  decide

/-- C16, amended: when every line before a `grpc-status-details-bin` line has
a `:`, the lines up to and including that line fit the declared length, and
the value of that line fails base64 decoding or status decoding, then
`ParseStatusAndTrailer` returns no error, a status with code Internal whose
message begins `transport: malformed grpc-status-details-bin: `, and no
metadata, whatever the lines before and after are. -/
theorem malformed_details_masked (L : Lib) (r : Reader) (length : Nat)
    (pre post : List (List Nat)) (d : List Nat)
    (hlines : scanLines r = pre ++ d :: post)
    (hfit : sumLen pre + d.length ≤ length)
    (hcolon : ∀ t ∈ pre, (Index t 58).isSome = true)
    (hkey : lineKey L d = some (bytesOf "grpc-status-details-bin"))
    (hbad : decodeDetails L (lineValue L d) = none) :
    isMasked (ParseStatusAndTrailer L r length) = true := by
  unfold ParseStatusAndTrailer
  rw [hlines]
  exact trailerLoop_masked L length d post pre TrailerVars.init
    (by simpa [TrailerVars.init] using hfit) hcolon hkey hbad

/-- C16, amended, at the payload `grpc-status: 5`, `x-custom: foo`,
`grpc-status-details-bin: !`, `grpc-message: x`. -/
theorem malformed_details_masked_witness :
    isMasked (ParseStatusAndTrailer asciiLib
      (bytesOf "grpc-status: 5\r\nx-custom: foo\r\ngrpc-status-details-bin: !\r\ngrpc-message: x\r\n")
      76) = true :=
  malformed_details_masked asciiLib
    (bytesOf "grpc-status: 5\r\nx-custom: foo\r\ngrpc-status-details-bin: !\r\ngrpc-message: x\r\n")
    76 [bytesOf "grpc-status: 5", bytesOf "x-custom: foo"] [bytesOf "grpc-message: x"]
    (bytesOf "grpc-status-details-bin: !") (by decide) (by decide) (by decide) (by decide)
    (by decide)

/-! ### Trailer parser: the `grpc-status` value -/

theorem decimal_foldl_ge (cs : List Nat) :
    ∀ a, a ≤ cs.foldl (fun a c => a * 10 + (c - 48)) a := by
  induction cs with
  | nil => intro a; exact Nat.le_refl _
  | cons c cs ih =>
    intro a
    rw [List.foldl_cons]
    exact Nat.le_trans (by omega) (ih (a * 10 + (c - 48)))

theorem parseUintLoop_eq (cs : List Nat) :
    ∀ n, n < 2 ^ 32 →
      parseUintLoop cs n =
        if cs.all isDigit = true ∧ cs.foldl (fun a c => a * 10 + (c - 48)) n < 2 ^ 32
        then some (cs.foldl (fun a c => a * 10 + (c - 48)) n) else none := by
  induction cs with
  | nil =>
    intro n hn
    simp only [parseUintLoop, List.all_nil, List.foldl_nil, true_and, if_pos hn]
  | cons c cs ih =>
    intro n hn
    rw [parseUintLoop, List.foldl_cons, List.all_cons]
    by_cases hc : 48 ≤ c ∧ c ≤ 57
    · have hd : isDigit c = true := by simp [isDigit, hc]
      rw [if_pos hc, hd, Bool.true_and]
      by_cases hbig : n * 10 + (c - 48) > 2 ^ 32 - 1
      · have hge := decimal_foldl_ge cs (n * 10 + (c - 48))
        rw [if_pos hbig, if_neg]
        intro h
        have := h.2
        omega
      · rw [if_neg hbig]
        exact ih _ (by omega)
    · have hd : isDigit c = false := by simp [isDigit, hc]
      rw [if_neg hc, hd, Bool.false_and]
      simp

/-- What `strconv.ParseUint(s, 10, 32)` returns: the value of a non-empty
string of decimal digits below `2^32`, and an error for every other string. -/
theorem ParseUint_eq (s : List Nat) :
    ParseUint s = if isUint32Text s = true then some (decimalValue s) else none := by
  unfold ParseUint
  by_cases hs : s = []
  · subst hs; simp [isUint32Text]
  · rw [if_neg hs, parseUintLoop_eq s 0 (by decide)]
    simp [isUint32Text, decimalValue, hs]

/-- A `grpc-status` line that fits the declared length leads to the next
iteration, whatever its value is. -/
theorem trailerBody_status (L : Lib) (length : Nat) (t : List Nat) (st : TrailerVars)
    (hlen : toUint32 (st.readLen + toUint32 t.length) ≤ length)
    (hkey : lineKey L t = some (bytesOf "grpc-status")) :
    trailerBody L length t st = LoopStep.next
      { st with
        readLen := toUint32 (st.readLen + toUint32 t.length)
        code := if isUint32Text (lineValue L t) = true then decimalValue (lineValue L t)
          else codes.Unknown } := by
  have hnot : ¬ toUint32 (st.readLen + toUint32 t.length) > length := by omega
  cases hi : Index t 58 with
  | none => simp [lineKey, hi] at hkey
  | some i =>
    have hk : ToLower L (t.take i) = bytesOf "grpc-status" := by
      simpa [lineKey, hi] using hkey
    unfold trailerBody
    simp only [hnot, if_false, hi, hk, if_true, lineValue, ParseUint_eq]
    by_cases hv : isUint32Text (TrimSpace L (List.drop (i + 1) t)) = true
    · have hlt : decimalValue (TrimSpace L (List.drop (i + 1) t)) < 2 ^ 32 := by
        simp only [isUint32Text, Bool.and_eq_true, decide_eq_true_eq] at hv
        exact hv.2
      simp only [hv, if_true, toUint32_of_lt _ hlt]
    · simp only [hv, if_false]
      simp

/-- An iteration on a line that is neither a `grpc-status` line nor a
`grpc-status-details-bin` line leaves `code` and `headerStat` alone. -/
theorem trailerBody_next_code (L : Lib) (length : Nat) (t : List Nat) (st st1 : TrailerVars)
    (h : trailerBody L length t st = LoopStep.next st1)
    (hs : lineKey L t ≠ some (bytesOf "grpc-status"))
    (hd : lineKey L t ≠ some (bytesOf "grpc-status-details-bin")) :
    st1.code = st.code ∧ st1.headerStat = st.headerStat := by
  unfold trailerBody at h
  simp only at h
  split at h
  · simp at h
  · cases hi : Index t 58 with
    | none => simp [hi] at h
    | some i =>
      have h1 : ToLower L (t.take i) ≠ bytesOf "grpc-status" := by
        intro hk; apply hs; simp [lineKey, hi, hk]
      have h3 : ToLower L (t.take i) ≠ bytesOf "grpc-status-details-bin" := by
        intro hk; apply hd; simp [lineKey, hi, hk]
      simp only [hi, h1, h3, if_false] at h
      split at h
      · simp only [LoopStep.next.injEq] at h; rw [← h]; exact ⟨rfl, rfl⟩
      · simp only [LoopStep.next.injEq] at h; rw [← h]; exact ⟨rfl, rfl⟩

/-- An iteration on a line that is not a `grpc-status-details-bin` line
leaves `headerStat` alone. -/
theorem trailerBody_next_headerStat (L : Lib) (length : Nat) (t : List Nat)
    (st st1 : TrailerVars) (h : trailerBody L length t st = LoopStep.next st1)
    (hd : lineKey L t ≠ some (bytesOf "grpc-status-details-bin")) :
    st1.headerStat = st.headerStat := by
  by_cases hs : lineKey L t = some (bytesOf "grpc-status")
  · have hfit : toUint32 (st.readLen + toUint32 t.length) ≤ length := by
      by_contra hc
      rw [trailerBody_overrun L length t st (by omega)] at h
      simp at h
    rw [trailerBody_status L length t st hfit hs] at h
    simp only [LoopStep.next.injEq] at h
    rw [← h]
  · exact (trailerBody_next_code L length t st st1 h hs hd).2

/-- Without a later `grpc-status` or details line the returned code is the
current value of `code`. -/
theorem trailerLoop_code_post (L : Lib) (length : Nat) (stat : Status) (md : Option MD) :
    ∀ (post : List (List Nat)) (st : TrailerVars),
      (∀ t ∈ post, lineKey L t ≠ some (bytesOf "grpc-status")) →
      (∀ t ∈ post, lineKey L t ≠ some (bytesOf "grpc-status-details-bin")) →
      st.headerStat = none →
      trailerLoop L length post st = Res.ok (stat, md) →
      stat.code = st.code := by
  intro post
  induction post with
  | nil =>
    intro st _ _ hh hres
    rw [trailerLoop_nil] at hres
    unfold trailerFinish at hres
    simp only [hh] at hres
    split at hres <;>
      (simp only [Res.ok.injEq, Prod.mk.injEq] at hres; rw [← hres.1]; rfl)
  | cons t ts ih =>
    intro st hs hd hh hres
    rw [trailerLoop_cons] at hres
    cases hb : trailerBody L length t st with
    | next st1 =>
      rw [hb] at hres
      have hk := trailerBody_next_code L length t st st1 hb (hs t (List.mem_cons_self _ _))
        (hd t (List.mem_cons_self _ _))
      rw [← hk.1]
      exact ih st1 (fun u hu => hs u (List.mem_cons_of_mem _ hu))
        (fun u hu => hd u (List.mem_cons_of_mem _ hu)) (hk.2.trans hh) hres
    | done res =>
      rw [hb] at hres
      simp only at hres
      rw [hres] at hb
      exact absurd (trailerBody_done_ok L length t st _ hb).1 (hd t (List.mem_cons_self _ _))

/-- A loop that ends without error over lines without a details line has
passed every line of a prefix with `headerStat` still unset. -/
theorem trailerLoop_pre (L : Lib) (length : Nat) (rest : List (List Nat))
    (x : Status × Option MD) :
    ∀ (pre : List (List Nat)) (st : TrailerVars),
      (∀ t ∈ pre, lineKey L t ≠ some (bytesOf "grpc-status-details-bin")) →
      st.headerStat = none →
      trailerLoop L length (pre ++ rest) st = Res.ok x →
      ∃ st1, st1.headerStat = none ∧ trailerLoop L length rest st1 = Res.ok x := by
  intro pre
  induction pre with
  | nil => intro st _ hh hres; exact ⟨st, hh, hres⟩
  | cons t ts ih =>
    intro st hd hh hres
    rw [List.cons_append, trailerLoop_cons] at hres
    cases hb : trailerBody L length t st with
    | next st1 =>
      rw [hb] at hres
      exact ih st1 (fun u hu => hd u (List.mem_cons_of_mem _ hu))
        ((trailerBody_next_headerStat L length t st st1 hb
          (hd t (List.mem_cons_self _ _))).trans hh) hres
    | done res =>
      rw [hb] at hres
      simp only at hres
      rw [hres] at hb
      exact absurd (trailerBody_done_ok L length t st _ hb).1 (hd t (List.mem_cons_self _ _))

/-- The status code, stated on the tokens that the scanner hands out: without a
`grpc-status-details-bin` token and without error, the code of the returned
status is what the trimmed value of the last `grpc-status` token spells, or
Unknown (2); and a `grpc-status` token that fits the declared length always
leads to the next iteration. -/
theorem status_code_tokens (L : Lib) (r : Reader) (length : Nat)
    (pre post : List (List Nat)) (l : List Nat) (stat : Status) (md : Option MD)
    (hlines : scanLines r = pre ++ l :: post)
    (hnodetails : ∀ t ∈ scanLines r, lineKey L t ≠ some (bytesOf "grpc-status-details-bin"))
    (hkey : lineKey L l = some (bytesOf "grpc-status"))
    (hlast : ∀ t ∈ post, lineKey L t ≠ some (bytesOf "grpc-status"))
    (hres : ParseStatusAndTrailer L r length = Res.ok (stat, md)) :
    stat.code = (if isUint32Text (lineValue L l) = true then decimalValue (lineValue L l)
      else codes.Unknown) ∧
    (isUint32Text (lineValue L l) = true → ParseUint (lineValue L l) = some stat.code) ∧
    (isUint32Text (lineValue L l) = false → ParseUint (lineValue L l) = none) ∧
    ∀ st : TrailerVars, toUint32 (st.readLen + toUint32 l.length) ≤ length →
      ∃ st1, trailerBody L length l st = LoopStep.next st1 ∧
        trailerLoop L length (l :: post) st = trailerLoop L length post st1 := by
  have hcode : stat.code = (if isUint32Text (lineValue L l) = true
      then decimalValue (lineValue L l) else codes.Unknown) := by
    unfold ParseStatusAndTrailer at hres
    rw [hlines] at hres hnodetails
    obtain ⟨st1, hh1, hres1⟩ := trailerLoop_pre L length (l :: post) (stat, md) pre
      TrailerVars.init (fun u hu => hnodetails u (List.mem_append_left _ hu)) rfl hres
    have hfit : toUint32 (st1.readLen + toUint32 l.length) ≤ length := by
      by_contra hc
      rw [trailerLoop_cons, trailerBody_overrun L length l st1 (by omega)] at hres1
      simp at hres1
    rw [trailerLoop_cons, trailerBody_status L length l st1 hfit hkey] at hres1
    exact trailerLoop_code_post L length stat md post
      { st1 with
        readLen := toUint32 (st1.readLen + toUint32 l.length)
        code := if isUint32Text (lineValue L l) = true then decimalValue (lineValue L l)
          else codes.Unknown }
      hlast
      (fun u hu => hnodetails u (List.mem_append_right _ (List.mem_cons_of_mem _ hu)))
      hh1 hres1
  refine ⟨hcode, ?_, ?_, ?_⟩
  · intro hv
    rw [ParseUint_eq, if_pos hv, hcode, if_pos hv]
  · intro hv
    rw [ParseUint_eq, hv]
    simp
  · intro st hfit
    refine ⟨_, trailerBody_status L length l st hfit hkey, ?_⟩
    rw [trailerLoop_cons, trailerBody_status L length l st hfit hkey]

theorem dropCR_status7 : dropCR (bytesOf "grpc-status: 7") = bytesOf "grpc-status: 7" := by
  decide

/-- C17 as stated fails: the payload with the lines `grpc-status: 5`, a line
`x:aaa...` of 65538 bytes and `grpc-status: 7` has no details line and parses
without error, the value of its last `grpc-status` line is the integer 7, and
the returned status has code 5, because the scanner stops at the line that
does not fit its 64 KiB buffer. -/
theorem long_line_hides_last_status :
    payloadLines (longLineBetween (bytesOf "grpc-status: 5") (bytesOf "grpc-status: 7")) =
      [bytesOf "grpc-status: 5", tooLongLine, bytesOf "grpc-status: 7"] ∧
    lineKey asciiLib tooLongLine = some [120] ∧
    lineKey asciiLib (bytesOf "grpc-status: 7") = some (bytesOf "grpc-status") ∧
    lineValue asciiLib (bytesOf "grpc-status: 7") = [55] ∧
    decimalValue [55] = 7 ∧
    ParseStatusAndTrailer asciiLib
      (longLineBetween (bytesOf "grpc-status: 5") (bytesOf "grpc-status: 7")) 100000 =
        Res.ok (status.New 5 [], none) := by
  refine ⟨?_, ?_, by decide, by decide, by decide, ?_⟩
  · rw [payloadLines_longLineBetween _ _ (by decide) (by decide), dropCR_status5,
      dropCR_status7]
  · unfold lineKey
    rw [tooLongLine_colon]
    unfold tooLongLine
    rfl
  · unfold ParseStatusAndTrailer
    rw [scanLines_longLineBetween _ _ (by decide) (by decide), dropCR_status5]
    rfl

/-- C17, amended: when every line of a trailer payload is shorter than 65535
bytes, the payload holds no `grpc-status-details-bin` line and
`ParseStatusAndTrailer` returns without error, the code of the returned status
is the number that the trimmed value of the last `grpc-status` line spells
when that value is a non-empty string of decimal digits below `2^32`, and
Unknown (2) for every other value; and on a `grpc-status` line that fits the
declared length the loop always goes on to the next line, whatever the value
is. -/
theorem status_code_fallback (L : Lib) (payload : List Nat) (length : Nat)
    (pre post : List (List Nat)) (l : List Nat) (stat : Status) (md : Option MD)
    (hshort : ∀ t ∈ payloadLines payload, t.length + 1 < maxScanTokenSize)
    (hlines : payloadLines payload = pre ++ l :: post)
    (hnodetails : ∀ t ∈ payloadLines payload,
      lineKey L t ≠ some (bytesOf "grpc-status-details-bin"))
    (hkey : lineKey L l = some (bytesOf "grpc-status"))
    (hlast : ∀ t ∈ post, lineKey L t ≠ some (bytesOf "grpc-status"))
    (hres : ParseStatusAndTrailer L payload length = Res.ok (stat, md)) :
    stat.code = (if isUint32Text (lineValue L l) = true then decimalValue (lineValue L l)
      else codes.Unknown) ∧
    (isUint32Text (lineValue L l) = true → ParseUint (lineValue L l) = some stat.code) ∧
    (isUint32Text (lineValue L l) = false → ParseUint (lineValue L l) = none) ∧
    ∀ st : TrailerVars, toUint32 (st.readLen + toUint32 l.length) ≤ length →
      ∃ st1, trailerBody L length l st = LoopStep.next st1 ∧
        trailerLoop L length (l :: post) st = trailerLoop L length post st1 :=
  status_code_tokens L payload length pre post l stat md
    (by rw [scanLines_eq_payloadLines payload hshort]; exact hlines)
    (by rw [scanLines_eq_payloadLines payload hshort]; exact hnodetails) hkey hlast hres

/-- C17, amended, at the payload `grpc-status: 7`, `grpc-status: -1`,
`x-custom: foo`: the value `-1` of the last `grpc-status` line is not an
unsigned integer, the call returns code Unknown and the metadata of the line
that follows. -/
theorem status_code_fallback_witness :
    ParseStatusAndTrailer asciiLib (bytesOf "grpc-status: 7\r\ngrpc-status: -1\r\nx-custom: foo\r\n")
      43 = Res.ok (status.New 2 [], some [(bytesOf "x-custom", [bytesOf "foo"])]) ∧
    (status.New 2 []).code = 2 ∧ ParseUint (bytesOf "-1") = none :=
  have h := status_code_fallback asciiLib
    (bytesOf "grpc-status: 7\r\ngrpc-status: -1\r\nx-custom: foo\r\n") 43
    [bytesOf "grpc-status: 7"] [bytesOf "x-custom: foo"] (bytesOf "grpc-status: -1")
    (status.New 2 []) (some [(bytesOf "x-custom", [bytesOf "foo"])])
    (by decide) (by decide) (by decide) (by decide) (by decide) (by decide)
  ⟨by decide, h.1, h.2.2.1 (by decide)⟩

/-! ### Client stream: second send, close, trailer -/

/-- `SendMsg` on a session whose latch is already published panics when the
HTTP exchange succeeds. -/
theorem SendMsg_latch_published (h : Http1ClientStream) (resp : Response)
    (hl : h.hasHeaderClosed = true) :
    (Http1ClientStream.SendMsg h none (Res.ok resp)).1 = Call.panic "close of closed channel" := by
  simp [Http1ClientStream.SendMsg, Http1ClientStream.storeHeader, hl]

/-- C18 fails in the code: a first `SendMsg` on a new session that obtains a
response returns nil and leaves the latch published, and a second `SendMsg`
whose HTTP exchange succeeds does not return an error: it panics with
`close of closed channel`, after it has replaced the response and the header
map of the session. -/
theorem second_send_panics (url : List Nat) (hdrs : MD) (resp1 resp2 : Response) :
    (Http1ClientStream.SendMsg (NewHttp1ClientStream url hdrs) none (Res.ok resp1)).1 =
      Call.ret none ∧
    (Http1ClientStream.SendMsg (NewHttp1ClientStream url hdrs) none
      (Res.ok resp1)).2.hasHeaderClosed = true ∧
    (Http1ClientStream.SendMsg
      (Http1ClientStream.SendMsg (NewHttp1ClientStream url hdrs) none (Res.ok resp1)).2
      none (Res.ok resp2)).1 = Call.panic "close of closed channel" ∧
    (Http1ClientStream.SendMsg
      (Http1ClientStream.SendMsg (NewHttp1ClientStream url hdrs) none (Res.ok resp1)).2
      none (Res.ok resp2)).2.resp = some resp2 ∧
    (Http1ClientStream.SendMsg
      (Http1ClientStream.SendMsg (NewHttp1ClientStream url hdrs) none (Res.ok resp1)).2
      none (Res.ok resp2)).2.headers = some resp2.Header :=
  ⟨rfl, rfl, rfl, rfl, rfl⟩

/-- On a session that holds a response `close` returns, leaves the context
cancelled and the body closed, and a second `close` changes nothing. -/
theorem close_after_response (h : Http1ClientStream) (resp : Response)
    (hr : h.resp = some resp) :
    (Http1ClientStream.close h).1 = Call.ret () ∧
    (Http1ClientStream.close h).2.ctxCancelled = true ∧
    (Http1ClientStream.close (Http1ClientStream.close h).2).1 = Call.ret () ∧
    (Http1ClientStream.close (Http1ClientStream.close h).2).2 = (Http1ClientStream.close h).2 := by
  simp [Http1ClientStream.close, hr]

/-- C19 fails in the code: on a newly created session, and on a session whose
only `SendMsg` failed in the HTTP exchange, `h.resp` is nil and `close` panics
with a nil pointer dereference after it has cancelled the internal context. -/
theorem close_before_response_panics (url : List Nat) (hdrs : MD) (e : GoError) :
    (Http1ClientStream.close (NewHttp1ClientStream url hdrs)).1 =
      Call.panic "invalid memory address or nil pointer dereference" ∧
    (Http1ClientStream.close (NewHttp1ClientStream url hdrs)).2.ctxCancelled = true ∧
    (Http1ClientStream.SendMsg (NewHttp1ClientStream url hdrs) none (Res.err e)).1 =
      Call.ret (some e) ∧
    (Http1ClientStream.close
      (Http1ClientStream.SendMsg (NewHttp1ClientStream url hdrs) none (Res.err e)).2).1 =
      Call.panic "invalid memory address or nil pointer dereference" :=
  ⟨rfl, rfl, rfl, rfl⟩

/-- No method of the session assigns the field `trailers`. -/
theorem trailers_never_assigned (L : Lib) (GetCodec : List Nat → Option Codec)
    (h : Http1ClientStream) (reqErr : Option GoError) (doRes : Res Response) :
    (Http1ClientStream.RecvMsg L GetCodec h).session.trailers = h.trailers ∧
    (Http1ClientStream.SendMsg h reqErr doRes).2.trailers = h.trailers ∧
    (Http1ClientStream.close h).2.trailers = h.trailers := by
  refine ⟨?_, ?_, ?_⟩
  · unfold Http1ClientStream.RecvMsg
    cases h.resp with
    | none => rfl
    | some resp =>
      simp only
      split
      · rfl
      · split <;> rfl
  · unfold Http1ClientStream.SendMsg Http1ClientStream.storeHeader
    cases reqErr with
    | some e => rfl
    | none =>
      cases doRes with
      | err e => rfl
      | ok resp =>
        simp only
        cases h.hasHeaderClosed <;> rfl
  · unfold Http1ClientStream.close
    cases h.resp <;> rfl

/-- C20 fails in the code: on the session whose response body is one trailer
frame with the lines `grpc-status: 0` and `x-custom: foo`, `bodyToMessage`
parses the metadata `x-custom: foo` out of the frame, `RecvMsg` consumes the
frame and returns nil, and `Trailer()` afterwards still returns nil metadata,
because `RecvMsg` discards the metadata that `bodyToMessage` returns. -/
theorem trailer_is_not_stored :
    sentSession.resp = some trailerResponse ∧
    (bodyToMessage asciiLib trailerResponse.Body (some acceptAll) true).out =
      Call.ret (some [(bytesOf "x-custom", [bytesOf "foo"])], none) ∧
    (Http1ClientStream.RecvMsg asciiLib (fun _ => some acceptAll) sentSession).out =
      Call.ret none ∧
    ((Http1ClientStream.RecvMsg asciiLib (fun _ => some acceptAll) sentSession).session.resp.map
      (fun resp => resp.Body)) = some [] ∧
    Http1ClientStream.Trailer
      (Http1ClientStream.RecvMsg asciiLib (fun _ => some acceptAll) sentSession).session = none := by
  decide

end GrpcWeb
